import Mathlib

/-!
# ESP32 business card firmware: request resolution, upload pipeline, stats persistence

A shallow embedding of `firmware/ESP32 Webserver Card/src/main.cpp`.

* Arduino `String` values are lists of characters (`Str`).
* `uint64_t` fields are natural numbers reduced modulo `2^64` at every arithmetic
  step; `unsigned long` (32 bits on the ESP32) is reduced modulo `2^32`.
* The LittleFS volume is a map from paths to the bytes of the file stored there. What the platform
  answers to a call whose result the firmware inspects (`LittleFS.open` returning
  an invalid `File`, `File::write` storing fewer bytes than offered) is an
  explicit input, `Platform`.
* The one `float` of the firmware, the average response time, is a binary32 value
  held as an exact fraction; conversion and division round to 24 significant
  bits, to nearest, ties to even.
* Global variables (`stats`, `lastSaveTime`, `uploadFile`, `uploadAccepted`) and
  the volume are the fields of `State`; every handler is a function on `State`.
-/

namespace ESP32Card

/-! ## Strings -/

/-- Arduino `String`: a sequence of characters. -/
abbrev Str := List Char

/-- `String::endsWith`. -/
def endsWith (s suffix : Str) : Bool := suffix.isSuffixOf s

/-- `String::startsWith`. -/
def startsWith (s pre : Str) : Bool := pre.isPrefixOf s

/-- Scan for `String::lastIndexOf`: `i` is the index of the head of the list,
`acc` the index of the last occurrence seen so far (`-1` when none). -/
def lastIndexFrom (c : Char) : Str → Nat → Int → Int
  | [], _, acc => acc
  | x :: xs, i, acc => lastIndexFrom c xs (i + 1) (if x = c then (i : Int) else acc)

/-- `String::lastIndexOf(char)`: index of the last occurrence, `-1` when absent. -/
def lastIndexOf (s : Str) (c : Char) : Int := lastIndexFrom c s 0 (-1)

/-! ## Machine integers -/

/-- Number of values of an `unsigned long` (32 bits on the ESP32). -/
def U32 : Nat := 2 ^ 32

/-- Number of values of a `uint64_t`. -/
def U64 : Nat := 2 ^ 64

/-- Subtraction of two `unsigned long` values. -/
def sub32 (a b : Nat) : Nat := (a % U32 + (U32 - b % U32)) % U32

/-- Addition on `uint64_t`. -/
def add64 (a b : Nat) : Nat := (a + b) % U64

/-! ## Persistent statistics -/

/-- The file holding the persisted record (`STATS_FILE`). -/
def STATS_FILE : Str := "/stats.bin".toList

/-- Flush interval in milliseconds (`SAVE_INTERVAL_MS`). -/
def SAVE_INTERVAL_MS : Nat := 3600000

/-- The record `struct PersistentStats`: three `uint64_t` fields. -/
structure PersistentStats where
  totalVisits : Nat
  totalResponseTimeMs : Nat
  totalRuntimeSeconds : Nat
deriving DecidableEq, Repr

/-- Every field is a `uint64_t` value. -/
def PersistentStats.wf (r : PersistentStats) : Prop :=
  r.totalVisits < U64 ∧ r.totalResponseTimeMs < U64 ∧ r.totalRuntimeSeconds < U64

instance PersistentStats.decidableWf (r : PersistentStats) : Decidable r.wf := by
  unfold PersistentStats.wf
  infer_instance

/-- Little-endian bytes of an unsigned integer, `k` bytes wide. -/
def bytesLE : Nat → Nat → List Nat
  | 0, _ => []
  | k + 1, n => n % 256 :: bytesLE k (n / 256)

/-- Value of a little-endian byte sequence. -/
def ofBytesLE : List Nat → Nat
  | [] => 0
  | b :: bs => b % 256 + 256 * ofBytesLE bs

/-- `sizeof(PersistentStats)`. -/
def sizeofStats : Nat := 24

/-- The memory image `(uint8_t*)&stats`: the three fields in declaration order,
eight little-endian bytes each. -/
def statsBytes (r : PersistentStats) : List Nat :=
  bytesLE 8 r.totalVisits ++ bytesLE 8 r.totalResponseTimeMs ++ bytesLE 8 r.totalRuntimeSeconds

/-- The record denoted by a 24-byte memory image. -/
def statsOfBytes (bs : List Nat) : PersistentStats :=
  { totalVisits := ofBytesLE (bs.take 8)
    totalResponseTimeMs := ofBytesLE ((bs.drop 8).take 8)
    totalRuntimeSeconds := ofBytesLE ((bs.drop 16).take 8) }

/-! ## File system and platform -/

/-- The LittleFS volume: the content of every existing file. -/
abbrev FS := Str → Option (List Nat)

/-- `LittleFS.exists`. -/
def FS.fileExists (fs : FS) (p : Str) : Bool := (fs p).isSome

/-- The volume with the content of `p` replaced. -/
def FS.set (fs : FS) (p : Str) (content : List Nat) : FS :=
  fun q => if q = p then some content else fs q

/-- Answers of the platform to the calls whose result the firmware inspects. -/
structure Platform where
  /-- whether `LittleFS.open` on this path hands back a valid `File` -/
  openOk : Str → Bool
  /-- how many of `n` offered bytes a `File::write` stores (capped at `n`) -/
  written : Nat → Nat

/-- `LittleFS.open(p, "r")`: the handle is valid when the platform opens the
file and the file exists. -/
def openRead (pf : Platform) (fs : FS) (p : Str) : Option (List Nat) :=
  if pf.openOk p then fs p else none

/-- `LittleFS.open(p, "w")`: a valid handle truncates (or creates) the file. -/
def openWrite (pf : Platform) (fs : FS) (p : Str) : Option Str × FS :=
  if pf.openOk p then (some p, fs.set p []) else (none, fs)

/-- `File::write(buf, n)` on the handle of `p`: the stored bytes are appended. -/
def fileWrite (pf : Platform) (fs : FS) (p : Str) (buf : List Nat) : Nat × FS :=
  let k := min (pf.written buf.length) buf.length
  (k, fs.set p ((fs p).getD [] ++ buf.take k))

/-! ## Program state -/

/-- The global variables of the firmware together with the volume. -/
structure State where
  stats : PersistentStats
  lastSaveTime : Nat
  /-- the global `File uploadFile`: the path of the open handle, `none` when invalid -/
  uploadFile : Option Str
  uploadAccepted : Bool
  fs : FS

/-- The globals as initialised at boot (`stats = {0, 0, 0}`, `lastSaveTime = 0`,
`uploadAccepted = false`, `uploadFile` invalid) over a given volume. -/
def bootState (fs : FS) : State :=
  { stats := ⟨0, 0, 0⟩, lastSaveTime := 0, uploadFile := none, uploadAccepted := false, fs := fs }

/-! ## Upload pipeline -/

/-- The C string held in a character buffer: the characters before the first NUL. -/
def cstr (s : Str) : Str := s.takeWhile (fun c => c != Char.ofNat 0)

/-- The comparison `server.arg("token") == ota_secret`; `token` is the value of the
request argument (empty when absent), `ota_secret` the configured `OTA_PWD`. The
right-hand side is a `const char*`, so `String::equals(const char*)` runs `strcmp`
on the two buffers: both sides count up to their first NUL only. -/
def isAuthorized (ota_secret token : Str) : Bool :=
  if cstr token = cstr ota_secret then true else false

/-- Status of an upload event. -/
inductive HTTPUploadStatus
  | UPLOAD_FILE_START
  | UPLOAD_FILE_WRITE
  | UPLOAD_FILE_END
  | UPLOAD_FILE_ABORTED
deriving DecidableEq, Repr

/-- The fields of `HTTPUpload` the handler reads; `currentSize` is `buf.length`. -/
structure HTTPUpload where
  status : HTTPUploadStatus
  filename : Str
  buf : List Nat

/-- The upload callback `handleFileUpload`. -/
def handleFileUpload (ota_secret : Str) (pf : Platform) (token : Str) (upload : HTTPUpload)
    (st : State) : State :=
  match upload.status with
  | .UPLOAD_FILE_START =>
    if !isAuthorized ota_secret token then
      { st with uploadAccepted := false }
    else
      let filename := if !startsWith upload.filename ['/'] then '/' :: upload.filename
                      else upload.filename
      let (file, fs1) := openWrite pf st.fs filename
      { st with uploadFile := file, uploadAccepted := true, fs := fs1 }
  | .UPLOAD_FILE_WRITE =>
    match st.uploadAccepted, st.uploadFile with
    | true, some p => { st with fs := (fileWrite pf st.fs p upload.buf).2 }
    | _, _ => st
  | .UPLOAD_FILE_END =>
    match st.uploadAccepted, st.uploadFile with
    | true, some _ => { st with uploadFile := none }
    | _, _ => st
  | .UPLOAD_FILE_ABORTED => st

/-- What `server.send` transmits: status code, extra headers, content type, body. -/
structure Response where
  code : Nat
  headers : List (Str × Str)
  contentType : Str
  body : Str
deriving DecidableEq, Repr

/-- The completion callback `handleUploadResponse`. -/
def handleUploadResponse (ota_secret token : Str) : Response :=
  if !isAuthorized ota_secret token then
    ⟨401, [], "text/plain".toList, "Unauthorized".toList⟩
  else
    ⟨303, [("Location".toList, "/status".toList)], [], []⟩

/-- One upload request as the dispatcher delivers it: a START event for `filename`,
one WRITE event per chunk, then END; every event is handled under its own
platform answers. -/
def uploadSession (filename : Str) (pfStart : Platform) (chunks : List (Platform × List Nat))
    (pfEnd : Platform) : List (Platform × HTTPUpload) :=
  (pfStart, ⟨.UPLOAD_FILE_START, filename, []⟩)
    :: chunks.map (fun c => (c.1, ⟨.UPLOAD_FILE_WRITE, filename, c.2⟩))
    ++ [(pfEnd, ⟨.UPLOAD_FILE_END, filename, []⟩)]

/-- The upload callback run over a sequence of events of one request. -/
def runUpload (ota_secret token : Str) (events : List (Platform × HTTPUpload)) (st : State) :
    State :=
  events.foldl (fun s e => handleFileUpload ota_secret e.1 token e.2 s) st

/-! ## Stats persistence -/

/-- The function `saveStats`. -/
def saveStats (pf : Platform) (st : State) : State :=
  match openWrite pf st.fs STATS_FILE with
  | (none, _) => st
  | (some p, fs1) => { st with fs := (fileWrite pf fs1 p (statsBytes st.stats)).2 }

/-- The function `loadStats`: `file.read` overwrites the leading bytes of the
record with what the file holds, at most `sizeof(stats)` bytes. -/
def loadStats (pf : Platform) (st : State) : State :=
  if st.fs.fileExists STATS_FILE then
    match openRead pf st.fs STATS_FILE with
    | some content =>
      let got := content.take sizeofStats
      { st with stats := statsOfBytes (got ++ (statsBytes st.stats).drop got.length) }
    | none => st
  else st

/-! ## Content type and request resolution -/

/-- The function `getContentType`; `hasDownload` is `server.hasArg("download")`. -/
def getContentType (hasDownload : Bool) (filename : Str) : Str :=
  if hasDownload then "application/octet-stream".toList
  else if endsWith filename ".html".toList then "text/html".toList
  else if endsWith filename ".css".toList then "text/css".toList
  else if endsWith filename ".js".toList then "application/javascript".toList
  else if endsWith filename ".png".toList then "image/png".toList
  else if endsWith filename ".gif".toList then "image/gif".toList
  else if endsWith filename ".jpg".toList then "image/jpeg".toList
  else if endsWith filename ".ico".toList then "image/x-icon".toList
  else if endsWith filename ".xml".toList then "text/xml".toList
  else if endsWith filename ".pdf".toList then "application/x-pdf".toList
  else if endsWith filename ".zip".toList then "application/x-zip".toList
  else "text/plain".toList

/-- The call `server.streamFile(file, contentType)` together with the locals that
chose the file. -/
structure Served where
  fullPath : Str
  isGzipped : Bool
  contentType : Str
deriving DecidableEq, Repr

/-- Outcome of `handleDynamicRequest`: the return value, the state afterwards, the
argument of the `LittleFS.open` call (if one was made) and the stream handed to
the client (if any). -/
structure DynResult where
  ret : Bool
  state : State
  opened : Option Str
  streamed : Option Served

/-- The block shared by both strategies of `handleDynamicRequest`: open `fullPath`,
give up when the handle is invalid, else stream and count the visit.
`startTick` and `endTick` are the two readings of `millis()`. -/
def openAndStream (pf : Platform) (startTick endTick : Nat) (st : State)
    (fullPath : Str) (isGzipped : Bool) (contentType : Str) : DynResult :=
  match openRead pf st.fs fullPath with
  | none => { ret := false, state := st, opened := some fullPath, streamed := none }
  | some _ =>
    let duration := sub32 endTick startTick
    let stats1 := { st.stats with totalVisits := add64 st.stats.totalVisits 1 }
    let stats2 := { stats1 with totalResponseTimeMs := add64 stats1.totalResponseTimeMs duration }
    { ret := true, state := { st with stats := stats2 }, opened := some fullPath,
      streamed := some ⟨fullPath, isGzipped, contentType⟩ }

/-- The statement `if (path.endsWith("/")) path += "index";` of
`handleDynamicRequest`. -/
def normalizePath (uri : Str) : Str :=
  if endsWith uri ['/'] then uri ++ "index".toList else uri

/-- The function `handleDynamicRequest`; `uri` is `server.uri()`. -/
def handleDynamicRequest (pf : Platform) (uri : Str) (hasDownload : Bool)
    (startTick endTick : Nat) (st : State) : DynResult :=
  let path := normalizePath uri
  let pathWithGz := path ++ ".gz".toList
  let contentType := getContentType hasDownload path
  if st.fs.fileExists pathWithGz || st.fs.fileExists path then
    let isGzipped := st.fs.fileExists pathWithGz
    let fullPath := if isGzipped then pathWithGz else path
    openAndStream pf startTick endTick st fullPath isGzipped contentType
  else if lastIndexOf path '.' ≤ lastIndexOf path '/' then
    let htmlPath := path ++ ".html".toList
    let htmlPathGz := htmlPath ++ ".gz".toList
    if st.fs.fileExists htmlPathGz || st.fs.fileExists htmlPath then
      let isGzipped := st.fs.fileExists htmlPathGz
      let fullPath := if isGzipped then htmlPathGz else htmlPath
      openAndStream pf startTick endTick st fullPath isGzipped "text/html".toList
    else { ret := false, state := st, opened := none, streamed := none }
  else { ret := false, state := st, opened := none, streamed := none }

/-! ## Status report and periodic flush -/

/-- The local `currentSessionSecs` of `handleStatus`: `millis() / 1000`. -/
def currentSessionSecs (millis : Nat) : Nat := (millis % U32) / 1000

/-- The local `totalLifetimeSecs` of `handleStatus`, rendered as `uptime_lifetime`. -/
def totalLifetimeSecs (st : State) (millis : Nat) : Nat :=
  add64 st.stats.totalRuntimeSeconds (currentSessionSecs millis)

/-- The condition of the periodic save in `loop`; `m1` is the reading of
`millis()` it makes. -/
def flushDue (m1 : Nat) (st : State) : Bool :=
  decide (sub32 m1 st.lastSaveTime ≥ SAVE_INTERVAL_MS)

/-- The periodic-save section of `loop`; `m1` is the reading of `millis()` in the
condition, `m2` the reading stored in `currentMillis`. Requests dispatched by
`server.handleClient()` are the handlers above. -/
def loop (pf : Platform) (m1 m2 : Nat) (st : State) : State :=
  if flushDue m1 st then
    let currentMillis := m2 % U32
    let elapsedSinceLastSave := sub32 currentMillis st.lastSaveTime
    let st1 := { st with stats := { st.stats with
      totalRuntimeSeconds := add64 st.stats.totalRuntimeSeconds (elapsedSinceLastSave / 1000) } }
    let st2 := saveStats pf st1
    { st2 with lastSaveTime := currentMillis }
  else st

/-! ## Time formatting and the status handler -/

/-- The conversion `%llu` of `snprintf`: the decimal digits of the argument. -/
def fmtLLU (n : Nat) : Str := Nat.toDigits 10 n

/-- The conversion `%02llu` of `snprintf`: the decimal digits of the argument,
padded with zeros on the left to a width of two. -/
def fmt02LLU (n : Nat) : Str :=
  List.replicate (2 - (Nat.toDigits 10 n).length) '0' ++ Nat.toDigits 10 n

/-- The function `formatTime`; `snprintf` into `char buffer[64]` keeps at most 63
characters. -/
def formatTime (totalSeconds : Nat) : Str :=
  let sec := totalSeconds % U64
  let min := sec / 60
  let hr := min / 60
  let day := hr / 24
  (fmtLLU day ++ "d ".toList ++ fmt02LLU (hr % 24) ++ "h:".toList ++ fmt02LLU (min % 60)
    ++ "m:".toList ++ fmt02LLU (sec % 60) ++ "s".toList).take 63

/-- The fields of the JSON body of `handleStatus` that are computed from the
globals and the clock with integer arithmetic. The float `avg_response_time_ms`
(the local `avgTime`, modelled by the function of that name) and the readings
`free_heap_bytes` and `wifi_signal_dbm` are left out. -/
structure StatusReport where
  uptime_session : Str
  uptime_lifetime : Str
  visits : Nat
deriving DecidableEq, Repr

/-- The function `handleStatus`; `millis` is its reading of `millis()`. It writes no
global, so the state comes back as it went in. -/
def handleStatus (millis : Nat) (st : State) : StatusReport × State :=
  ({ uptime_session := formatTime (currentSessionSecs millis)
     uptime_lifetime := formatTime (totalLifetimeSecs st millis)
     visits := st.stats.totalVisits % U32 }, st)

/-! ## Binary32 arithmetic of the average response time -/

/-- Halving count for `ilog2`, with fuel. -/
def ilog2Aux : Nat → Nat → Nat
  | 0, _ => 0
  | fuel + 1, n => if n < 2 then 0 else ilog2Aux fuel (n / 2) + 1

/-- Position of the highest set bit of a positive number. -/
def ilog2 (n : Nat) : Nat := ilog2Aux n n

/-- A finite non-negative binary32 value, held as the fraction `num / den` with
`den` a power of two. The exponent range is not represented: the values that arise
from two 64-bit counters and their quotient lie between `2 ^ (-64)` and `2 ^ 64`,
inside the normal range of the format. -/
structure F32 where
  num : Nat
  den : Nat
deriving DecidableEq, Repr

/-- The rational number a binary32 value stands for. -/
def F32.toRat (x : F32) : ℚ := (x.num : ℚ) / (x.den : ℚ)

/-- Rounding of `n / d` to a whole number: to nearest, ties to even. -/
def roundTiesEven (n d : Nat) : Nat :=
  if 2 * (n % d) < d then n / d
  else if d < 2 * (n % d) then n / d + 1
  else if n / d % 2 = 0 then n / d else n / d + 1

/-- The `b` with `2 ^ (ilog2 num - b) <= num / den < 2 ^ (ilog2 num - b + 1)`, for
positive `num` and `den`: the position of the highest set bit of `den`, or one
more when the leading bits of `num` are below those of `den`. -/
def expDen (num den : Nat) : Nat :=
  if den * 2 ^ ilog2 num ≤ num * 2 ^ ilog2 den then ilog2 den else ilog2 den + 1

/-- The binary32 value nearest to `num / den` (for `den > 0`): 24 significant bits,
round to nearest, ties to the even significand. With `a = ilog2 num` and
`b = expDen num den`, the quotient is scaled by `2 ^ (23 + b - a)` (a
multiplication by `2 ^ up` or a division by `2 ^ down`, one of the two exponents
being 0) so that it lies between `2 ^ 23` and `2 ^ 24`, rounded to a whole number,
and scaled back. -/
def roundF32 (num den : Nat) : F32 :=
  if num = 0 then ⟨0, 1⟩
  else
    let a := ilog2 num
    let b := expDen num den
    let up := 23 + b - a
    let down := a - (23 + b)
    ⟨roundTiesEven (num * 2 ^ up) (den * 2 ^ down) * 2 ^ down, 2 ^ up⟩

/-- The conversion of a `uint64_t` to `float`. -/
def u64ToF32 (n : Nat) : F32 := roundF32 n 1

/-- Division of two non-negative `float` values; `none` stands for the result of
a division by zero (an infinity or a NaN), which `F32` does not represent. -/
def f32div (x y : F32) : Option F32 :=
  if y.num = 0 then none
  else some (roundF32 (x.num * y.den) (x.den * y.num))

/-- The local `avgTime` of `handleStatus`:
`(stats.totalVisits > 0) ? (float)stats.totalResponseTimeMs / stats.totalVisits : 0`. -/
def avgTime (stats : PersistentStats) : Option F32 :=
  if stats.totalVisits > 0 then
    f32div (u64ToF32 stats.totalResponseTimeMs) (u64ToF32 stats.totalVisits)
  else some ⟨0, 1⟩

/-! ## Post-boot steps -/

/-- What can happen after `setup`: the handlers `server.handleClient()` dispatches
to, and the periodic-save section of `loop`. -/
inductive Step
  /-- a request routed to `handleNotFound`, hence to `handleDynamicRequest` -/
  | request (pf : Platform) (uri : Str) (hasDownload : Bool) (startTick endTick : Nat)
  /-- one event of an upload to `/update`, handled by `handleFileUpload` -/
  | uploadEvent (pf : Platform) (token : Str) (upload : HTTPUpload)
  /-- the completion of an upload, handled by `handleUploadResponse` -/
  | uploadResponse (token : Str)
  /-- a request to `/status`, handled by `handleStatus` -/
  | status (millis : Nat)
  /-- the periodic-save section of `loop` -/
  | tick (pf : Platform) (m1 m2 : Nat)

/-- The state after one step; `handleUploadResponse` only sends a response. -/
def step (ota_secret : Str) : Step → State → State
  | .request pf uri hasDownload startTick endTick, st =>
    (handleDynamicRequest pf uri hasDownload startTick endTick st).state
  | .uploadEvent pf token upload, st => handleFileUpload ota_secret pf token upload st
  | .uploadResponse _, st => st
  | .status millis, st => (handleStatus millis st).2
  | .tick pf m1 m2, st => loop pf m1 m2 st

/-- The state after a sequence of steps. -/
def runSteps (ota_secret : Str) (steps : List Step) (st : State) : State :=
  steps.foldl (fun s e => step ota_secret e s) st

/-- The 64-bit additions a step performs stay below `2^64`: the two additions of a
served request, the addition of a flush. -/
def Step.fits : Step → State → Prop
  | .request pf uri hasDownload startTick endTick, st =>
    (handleDynamicRequest pf uri hasDownload startTick endTick st).ret = true →
      st.stats.totalVisits + 1 < U64
      ∧ st.stats.totalResponseTimeMs + sub32 endTick startTick < U64
  | .tick _ m1 m2, st =>
    flushDue m1 st = true →
      st.stats.totalRuntimeSeconds + sub32 (m2 % U32) st.lastSaveTime / 1000 < U64
  | _, _ => True

/-- Every step of a run fits, each judged in the state it starts from. -/
def runFits (ota_secret : Str) : List Step → State → Prop
  | [], _ => True
  | e :: es, st => e.fits st ∧ runFits ota_secret es (step ota_secret e st)

/-- Field-wise order on stats records. -/
def PersistentStats.le (a b : PersistentStats) : Prop :=
  a.totalVisits ≤ b.totalVisits ∧ a.totalResponseTimeMs ≤ b.totalResponseTimeMs
    ∧ a.totalRuntimeSeconds ≤ b.totalRuntimeSeconds

/-! ## Concrete volumes and platforms used in the examples -/

/-- A platform on which every open succeeds and every write stores all bytes. -/
def reliable : Platform := ⟨fun _ => true, fun n => n⟩

/-- A platform on which `LittleFS.open` never hands back a valid `File`. -/
def refusing : Platform := ⟨fun _ => false, fun n => n⟩

/-- A platform on which every open succeeds and no write stores a byte. -/
def fullFlash : Platform := ⟨fun _ => true, fun _ => 0⟩

/-- The volume holding exactly the listed files. -/
def volume (files : List (Str × List Nat)) : FS :=
  fun q => (files.find? (fun f => decide (f.1 = q))).map (fun f => f.2)

/-! ## Lemmas on strings -/

theorem lastIndexFrom_append (c : Char) (xs ys : Str) (i : Nat) (acc : Int) :
    lastIndexFrom c (xs ++ ys) i acc
      = lastIndexFrom c ys (i + xs.length) (lastIndexFrom c xs i acc) := by
  induction xs generalizing i acc with
  | nil => simp [lastIndexFrom]
  | cons x xs ih =>
    have h := ih (i + 1) (if x = c then (i : Int) else acc)
    rw [show i + 1 + xs.length = i + (xs.length + 1) by omega] at h
    simpa [lastIndexFrom] using h

theorem lastIndexFrom_lt (c : Char) (xs : Str) (i : Nat) (acc : Int)
    (h : acc < (i : Int) + xs.length) :
    lastIndexFrom c xs i acc < (i : Int) + xs.length := by
  induction xs generalizing i acc with
  | nil => simpa [lastIndexFrom] using h
  | cons x xs ih =>
    simp only [lastIndexFrom, List.length_cons]
    have key : (if x = c then (i : Int) else acc) < ((i + 1 : Nat) : Int) + xs.length := by
      split
      · push_cast; omega
      · simp only [List.length_cons] at h; push_cast at h ⊢; omega
    have := ih (i + 1) _ key
    push_cast at this ⊢
    omega

/-- A path with a dot after its last slash does not end in a slash. -/
theorem not_endsWith_slash_of_ext (uri : Str)
    (hext : lastIndexOf uri '/' < lastIndexOf uri '.') : endsWith uri ['/'] = false := by
  by_contra hne
  have hs : endsWith uri ['/'] = true := by simpa using hne
  simp only [endsWith, List.isSuffixOf_iff_suffix] at hs
  obtain ⟨q, rfl⟩ := hs
  have hdot : lastIndexOf (q ++ ['/']) '.' = lastIndexFrom '.' q 0 (-1) := by
    simp [lastIndexOf, lastIndexFrom_append, lastIndexFrom]
  have hsl : lastIndexOf (q ++ ['/']) '/' = (q.length : Int) := by
    simp [lastIndexOf, lastIndexFrom_append, lastIndexFrom]
  have hlt := lastIndexFrom_lt '.' q 0 (-1) (by push_cast; omega)
  rw [hdot, hsl] at hext
  push_cast at hlt
  omega

/-- Appending `index` moves neither the last dot nor the last slash. -/
theorem lastIndexOf_append_index (uri : Str) :
    lastIndexOf (uri ++ "index".toList) '.' = lastIndexOf uri '.'
      ∧ lastIndexOf (uri ++ "index".toList) '/' = lastIndexOf uri '/' := by
  constructor <;> simp [lastIndexOf, lastIndexFrom_append, lastIndexFrom]

/-- Two suffixes of one string: one of them is a suffix of the other. -/
theorem endsWith_comparable (f a b : Str) (ha : endsWith f a = true)
    (hb : endsWith f b = true) : (endsWith b a || endsWith a b) = true := by
  simp only [endsWith, List.isSuffixOf_iff_suffix, Bool.or_eq_true] at *
  rcases Nat.le_total a.length b.length with h | h
  · exact Or.inl (List.suffix_of_suffix_length_le ha hb h)
  · exact Or.inr (List.suffix_of_suffix_length_le hb ha h)

/-- A string ending in `a` ends in no `b` that is incomparable with `a`. -/
theorem endsWith_excludes (f a b : Str) (ha : endsWith f a = true)
    (hab : (endsWith b a || endsWith a b) = false) : endsWith f b = false := by
  by_contra hne
  have hb : endsWith f b = true := by simpa using hne
  have := endsWith_comparable f a b ha hb
  rw [hab] at this
  exact Bool.noConfusion this

/-! ## Lemmas on the request handler -/

theorem openAndStream_of_exists (pf : Platform) (startTick endTick : Nat) (st : State)
    (p : Str) (gz : Bool) (ct : Str) (h : st.fs.fileExists p = true) :
    openAndStream pf startTick endTick st p gz ct =
      if pf.openOk p then
        { ret := true
          state := { st with stats :=
            { totalVisits := add64 st.stats.totalVisits 1
              totalResponseTimeMs := add64 st.stats.totalResponseTimeMs (sub32 endTick startTick)
              totalRuntimeSeconds := st.stats.totalRuntimeSeconds } }
          opened := some p
          streamed := some ⟨p, gz, ct⟩ }
      else { ret := false, state := st, opened := some p, streamed := none } := by
  unfold openAndStream openRead
  simp only [FS.fileExists, Option.isSome_iff_exists] at h
  obtain ⟨c, hc⟩ := h
  cases hp : pf.openOk p <;> simp [hc]

/-! ## Request resolution: exact match (C1) -/

/-- C1, as stated, fails: `/a.css.gz` exists and the request `/a.css` has an
extension, yet when `LittleFS.open` hands back an invalid `File` the handler
returns `false` and streams nothing. -/
theorem exact_match_open_failure :
    lastIndexOf "/a.css".toList '/' < lastIndexOf "/a.css".toList '.'
    ∧ (volume [("/a.css.gz".toList, [31, 139])]).fileExists "/a.css.gz".toList = true
    ∧ (handleDynamicRequest refusing "/a.css".toList false 0 0
        (bootState (volume [("/a.css.gz".toList, [31, 139])]))).streamed = none
    ∧ (handleDynamicRequest refusing "/a.css".toList false 0 0
        (bootState (volume [("/a.css.gz".toList, [31, 139])]))).ret = false := by
  decide

/-- C1, amended: for a request path with an extension, the handler hands
`P + ".gz"` to `LittleFS.open` whenever that file exists (whether or not `P`
exists), and `P` itself when only `P` exists; it streams the opened file, with the
content type of `P`, exactly when the open yields a valid `File`, and otherwise
returns `false` without streaming. -/
theorem handleDynamicRequest_exact_match (pf : Platform) (uri : Str) (hasDownload : Bool)
    (startTick endTick : Nat) (st : State)
    (hext : lastIndexOf uri '/' < lastIndexOf uri '.') :
    (st.fs.fileExists (uri ++ ".gz".toList) = true →
      (handleDynamicRequest pf uri hasDownload startTick endTick st).opened
          = some (uri ++ ".gz".toList)
      ∧ (handleDynamicRequest pf uri hasDownload startTick endTick st).ret
          = pf.openOk (uri ++ ".gz".toList)
      ∧ (handleDynamicRequest pf uri hasDownload startTick endTick st).streamed
          = if pf.openOk (uri ++ ".gz".toList)
            then some ⟨uri ++ ".gz".toList, true, getContentType hasDownload uri⟩ else none)
    ∧ (st.fs.fileExists (uri ++ ".gz".toList) = false → st.fs.fileExists uri = true →
      (handleDynamicRequest pf uri hasDownload startTick endTick st).opened = some uri
      ∧ (handleDynamicRequest pf uri hasDownload startTick endTick st).ret = pf.openOk uri
      ∧ (handleDynamicRequest pf uri hasDownload startTick endTick st).streamed
          = if pf.openOk uri
            then some ⟨uri, false, getContentType hasDownload uri⟩ else none) := by
  have hslash : normalizePath uri = uri := by
    simp [normalizePath, not_endsWith_slash_of_ext uri hext]
  constructor
  · intro hgz
    have h := openAndStream_of_exists pf startTick endTick st (uri ++ ".gz".toList) true
      (getContentType hasDownload uri) hgz
    simp only [handleDynamicRequest, hslash, hgz, Bool.true_or, if_true, Bool.false_eq_true,
      if_false, h]
    cases pf.openOk (uri ++ ".gz".toList) <;> simp
  · intro hgz hp
    have h := openAndStream_of_exists pf startTick endTick st uri false
      (getContentType hasDownload uri) hp
    simp only [handleDynamicRequest, hslash, hgz, hp, Bool.false_or, if_true,
      Bool.false_eq_true, if_false, h]
    cases pf.openOk uri <;> simp

/-- C1, amended, at the request `/a.css` with both `/a.css` and `/a.css.gz` stored. -/
theorem handleDynamicRequest_exact_match_witness :
    lastIndexOf "/a.css".toList '/' < lastIndexOf "/a.css".toList '.'
    ∧ (handleDynamicRequest reliable "/a.css".toList false 10 15
        (bootState (volume [("/a.css".toList, [97]), ("/a.css.gz".toList, [31, 139])]))).streamed
        = some ⟨"/a.css.gz".toList, true, "text/css".toList⟩ :=
  ⟨by decide,
   ((handleDynamicRequest_exact_match reliable "/a.css".toList false 10 15
      (bootState (volume [("/a.css".toList, [97]), ("/a.css.gz".toList, [31, 139])]))
      (by decide)).1 (by decide)).2.2⟩

/-! ## Request resolution: HTML fallback (C2) -/

/-- C2, as stated, fails: for the extension-less request `/about` with both
`/about` and `/about.html.gz` stored, the exact match wins and `/about` is
streamed as `text/plain`; and for the extension-less request `/` with
`/.html.gz` stored, the handler looks for `/index...` and reports no match. -/
theorem html_fallback_shadowed :
    (lastIndexOf "/about".toList '.' ≤ lastIndexOf "/about".toList '/'
      ∧ (volume [("/about".toList, [1]), ("/about.html.gz".toList, [31, 139])]).fileExists
          ("/about".toList ++ ".html.gz".toList) = true
      ∧ (handleDynamicRequest reliable "/about".toList false 0 0
          (bootState (volume [("/about".toList, [1]), ("/about.html.gz".toList, [31, 139])]))).streamed
          = some ⟨"/about".toList, false, "text/plain".toList⟩)
    ∧ (lastIndexOf "/".toList '.' ≤ lastIndexOf "/".toList '/'
      ∧ (volume [("/.html.gz".toList, [31, 139])]).fileExists
          ("/".toList ++ ".html.gz".toList) = true
      ∧ (handleDynamicRequest reliable "/".toList false 0 0
          (bootState (volume [("/.html.gz".toList, [31, 139])]))).opened = none
      ∧ (handleDynamicRequest reliable "/".toList false 0 0
          (bootState (volume [("/.html.gz".toList, [31, 139])]))).ret = false) := by
  decide

/-- C2, amended: let `Q` be the extension-less request path `P` with `index`
appended when `P` ends in a slash. When neither `Q + ".gz"` nor `Q` exists, the
handler resolves to `Q + ".html.gz"` (compressed) if that exists, otherwise to
`Q + ".html"` (uncompressed) if that exists, otherwise it reports no match; what
it streams in the two matching cases has content type `text/html`, also under a
`download` argument. -/
theorem handleDynamicRequest_html_fallback (pf : Platform) (uri : Str) (hasDownload : Bool)
    (startTick endTick : Nat) (st : State)
    (hnoext : lastIndexOf uri '.' ≤ lastIndexOf uri '/')
    (hgz : st.fs.fileExists (normalizePath uri ++ ".gz".toList) = false)
    (hp : st.fs.fileExists (normalizePath uri) = false) :
    (st.fs.fileExists (normalizePath uri ++ ".html".toList ++ ".gz".toList) = true →
      (handleDynamicRequest pf uri hasDownload startTick endTick st).opened
          = some (normalizePath uri ++ ".html".toList ++ ".gz".toList)
      ∧ (handleDynamicRequest pf uri hasDownload startTick endTick st).ret
          = pf.openOk (normalizePath uri ++ ".html".toList ++ ".gz".toList)
      ∧ (handleDynamicRequest pf uri hasDownload startTick endTick st).streamed
          = if pf.openOk (normalizePath uri ++ ".html".toList ++ ".gz".toList)
            then some ⟨normalizePath uri ++ ".html".toList ++ ".gz".toList, true,
                        "text/html".toList⟩
            else none)
    ∧ (st.fs.fileExists (normalizePath uri ++ ".html".toList ++ ".gz".toList) = false →
        st.fs.fileExists (normalizePath uri ++ ".html".toList) = true →
      (handleDynamicRequest pf uri hasDownload startTick endTick st).opened
          = some (normalizePath uri ++ ".html".toList)
      ∧ (handleDynamicRequest pf uri hasDownload startTick endTick st).ret
          = pf.openOk (normalizePath uri ++ ".html".toList)
      ∧ (handleDynamicRequest pf uri hasDownload startTick endTick st).streamed
          = if pf.openOk (normalizePath uri ++ ".html".toList)
            then some ⟨normalizePath uri ++ ".html".toList, false, "text/html".toList⟩
            else none)
    ∧ (st.fs.fileExists (normalizePath uri ++ ".html".toList ++ ".gz".toList) = false →
        st.fs.fileExists (normalizePath uri ++ ".html".toList) = false →
      (handleDynamicRequest pf uri hasDownload startTick endTick st).ret = false
      ∧ (handleDynamicRequest pf uri hasDownload startTick endTick st).opened = none
      ∧ (handleDynamicRequest pf uri hasDownload startTick endTick st).streamed = none) := by
  have hno : lastIndexOf (normalizePath uri) '.' ≤ lastIndexOf (normalizePath uri) '/' := by
    unfold normalizePath
    split
    · rw [(lastIndexOf_append_index uri).1, (lastIndexOf_append_index uri).2]
      exact hnoext
    · exact hnoext
  refine ⟨?_, ?_, ?_⟩
  · intro hhgz
    have h := openAndStream_of_exists pf startTick endTick st
      (normalizePath uri ++ ".html".toList ++ ".gz".toList) true "text/html".toList hhgz
    simp only [handleDynamicRequest, hgz, hp, hhgz, hno, Bool.or_self, Bool.true_or, if_true,
      Bool.false_eq_true, if_false, h]
    cases pf.openOk (normalizePath uri ++ ".html".toList ++ ".gz".toList) <;> simp
  · intro hhgz hh
    have h := openAndStream_of_exists pf startTick endTick st
      (normalizePath uri ++ ".html".toList) false "text/html".toList hh
    simp only [handleDynamicRequest, hgz, hp, hhgz, hh, hno, Bool.or_self, Bool.false_or,
      if_true, Bool.false_eq_true, if_false, h]
    cases pf.openOk (normalizePath uri ++ ".html".toList) <;> simp
  · intro hhgz hh
    simp only [handleDynamicRequest, hgz, hp, hhgz, hh, hno, Bool.or_self, Bool.false_eq_true,
      if_false, if_true]
    exact ⟨trivial, trivial, trivial⟩

/-- C2, amended, at the request `/about` with `/about.html` and `/about.html.gz`
stored and no file `/about` or `/about.gz`. -/
theorem handleDynamicRequest_html_fallback_witness :
    lastIndexOf "/about".toList '.' ≤ lastIndexOf "/about".toList '/'
    ∧ (handleDynamicRequest reliable "/about".toList true 0 7
        (bootState (volume [("/about.html".toList, [60]),
          ("/about.html.gz".toList, [31, 139])]))).streamed
        = some ⟨"/about.html.gz".toList, true, "text/html".toList⟩ :=
  ⟨by decide,
   ((handleDynamicRequest_html_fallback reliable "/about".toList true 0 7
      (bootState (volume [("/about.html".toList, [60]), ("/about.html.gz".toList, [31, 139])]))
      (by decide) (by decide) (by decide)).1 (by decide)).2.2⟩

/-! ## Content type (C3) -/

/-- C3, as stated, fails: without a `download` argument a name ending in `.jpeg`
gets `text/plain`, not `image/jpeg`. -/
theorem getContentType_jpeg :
    endsWith "/photo.jpeg".toList ".jpeg".toList = true
    ∧ getContentType false "/photo.jpeg".toList = "text/plain".toList
    ∧ getContentType false "/photo.jpeg".toList ≠ "image/jpeg".toList := by
  decide

/-- C3, amended: with a `download` argument every file name gets
`application/octet-stream`; without one, a name ending in `.html`, `.css`, `.js`,
`.png`, `.gif`, `.jpg`, `.ico`, `.xml`, `.pdf` or `.zip` gets the MIME type of the
table, and every other name (one ending in `.jpeg` included) gets `text/plain`. -/
theorem getContentType_table (filename : Str) :
    getContentType true filename = "application/octet-stream".toList
    ∧ (endsWith filename ".html".toList = true →
        getContentType false filename = "text/html".toList)
    ∧ (endsWith filename ".css".toList = true →
        getContentType false filename = "text/css".toList)
    ∧ (endsWith filename ".js".toList = true →
        getContentType false filename = "application/javascript".toList)
    ∧ (endsWith filename ".png".toList = true →
        getContentType false filename = "image/png".toList)
    ∧ (endsWith filename ".gif".toList = true →
        getContentType false filename = "image/gif".toList)
    ∧ (endsWith filename ".jpg".toList = true →
        getContentType false filename = "image/jpeg".toList)
    ∧ (endsWith filename ".ico".toList = true →
        getContentType false filename = "image/x-icon".toList)
    ∧ (endsWith filename ".xml".toList = true →
        getContentType false filename = "text/xml".toList)
    ∧ (endsWith filename ".pdf".toList = true →
        getContentType false filename = "application/x-pdf".toList)
    ∧ (endsWith filename ".zip".toList = true →
        getContentType false filename = "application/x-zip".toList)
    ∧ (endsWith filename ".html".toList = false →
        endsWith filename ".css".toList = false →
        endsWith filename ".js".toList = false →
        endsWith filename ".png".toList = false →
        endsWith filename ".gif".toList = false →
        endsWith filename ".jpg".toList = false →
        endsWith filename ".ico".toList = false →
        endsWith filename ".xml".toList = false →
        endsWith filename ".pdf".toList = false →
        endsWith filename ".zip".toList = false →
        getContentType false filename = "text/plain".toList) := by
  refine ⟨rfl, ?_, ?_, ?_, ?_, ?_, ?_, ?_, ?_, ?_, ?_, ?_⟩
  · intro h
    simp only [getContentType, h, Bool.false_eq_true, if_false, if_true]
  · intro h
    have e0 := endsWith_excludes filename ".css".toList ".html".toList h (by decide)
    simp only [getContentType, h, e0, Bool.false_eq_true, if_false, if_true]
  · intro h
    have e0 := endsWith_excludes filename ".js".toList ".html".toList h (by decide)
    have e1 := endsWith_excludes filename ".js".toList ".css".toList h (by decide)
    simp only [getContentType, h, e0, e1, Bool.false_eq_true, if_false, if_true]
  · intro h
    have e0 := endsWith_excludes filename ".png".toList ".html".toList h (by decide)
    have e1 := endsWith_excludes filename ".png".toList ".css".toList h (by decide)
    have e2 := endsWith_excludes filename ".png".toList ".js".toList h (by decide)
    simp only [getContentType, h, e0, e1, e2, Bool.false_eq_true, if_false, if_true]
  · intro h
    have e0 := endsWith_excludes filename ".gif".toList ".html".toList h (by decide)
    have e1 := endsWith_excludes filename ".gif".toList ".css".toList h (by decide)
    have e2 := endsWith_excludes filename ".gif".toList ".js".toList h (by decide)
    have e3 := endsWith_excludes filename ".gif".toList ".png".toList h (by decide)
    simp only [getContentType, h, e0, e1, e2, e3, Bool.false_eq_true, if_false, if_true]
  · intro h
    have e0 := endsWith_excludes filename ".jpg".toList ".html".toList h (by decide)
    have e1 := endsWith_excludes filename ".jpg".toList ".css".toList h (by decide)
    have e2 := endsWith_excludes filename ".jpg".toList ".js".toList h (by decide)
    have e3 := endsWith_excludes filename ".jpg".toList ".png".toList h (by decide)
    have e4 := endsWith_excludes filename ".jpg".toList ".gif".toList h (by decide)
    simp only [getContentType, h, e0, e1, e2, e3, e4, Bool.false_eq_true, if_false, if_true]
  · intro h
    have e0 := endsWith_excludes filename ".ico".toList ".html".toList h (by decide)
    have e1 := endsWith_excludes filename ".ico".toList ".css".toList h (by decide)
    have e2 := endsWith_excludes filename ".ico".toList ".js".toList h (by decide)
    have e3 := endsWith_excludes filename ".ico".toList ".png".toList h (by decide)
    have e4 := endsWith_excludes filename ".ico".toList ".gif".toList h (by decide)
    have e5 := endsWith_excludes filename ".ico".toList ".jpg".toList h (by decide)
    simp only [getContentType, h, e0, e1, e2, e3, e4, e5, Bool.false_eq_true, if_false, if_true]
  · intro h
    have e0 := endsWith_excludes filename ".xml".toList ".html".toList h (by decide)
    have e1 := endsWith_excludes filename ".xml".toList ".css".toList h (by decide)
    have e2 := endsWith_excludes filename ".xml".toList ".js".toList h (by decide)
    have e3 := endsWith_excludes filename ".xml".toList ".png".toList h (by decide)
    have e4 := endsWith_excludes filename ".xml".toList ".gif".toList h (by decide)
    have e5 := endsWith_excludes filename ".xml".toList ".jpg".toList h (by decide)
    have e6 := endsWith_excludes filename ".xml".toList ".ico".toList h (by decide)
    simp only [getContentType, h, e0, e1, e2, e3, e4, e5, e6, Bool.false_eq_true, if_false, if_true]
  · intro h
    have e0 := endsWith_excludes filename ".pdf".toList ".html".toList h (by decide)
    have e1 := endsWith_excludes filename ".pdf".toList ".css".toList h (by decide)
    have e2 := endsWith_excludes filename ".pdf".toList ".js".toList h (by decide)
    have e3 := endsWith_excludes filename ".pdf".toList ".png".toList h (by decide)
    have e4 := endsWith_excludes filename ".pdf".toList ".gif".toList h (by decide)
    have e5 := endsWith_excludes filename ".pdf".toList ".jpg".toList h (by decide)
    have e6 := endsWith_excludes filename ".pdf".toList ".ico".toList h (by decide)
    have e7 := endsWith_excludes filename ".pdf".toList ".xml".toList h (by decide)
    simp only [getContentType, h, e0, e1, e2, e3, e4, e5, e6, e7, Bool.false_eq_true, if_false, if_true]
  · intro h
    have e0 := endsWith_excludes filename ".zip".toList ".html".toList h (by decide)
    have e1 := endsWith_excludes filename ".zip".toList ".css".toList h (by decide)
    have e2 := endsWith_excludes filename ".zip".toList ".js".toList h (by decide)
    have e3 := endsWith_excludes filename ".zip".toList ".png".toList h (by decide)
    have e4 := endsWith_excludes filename ".zip".toList ".gif".toList h (by decide)
    have e5 := endsWith_excludes filename ".zip".toList ".jpg".toList h (by decide)
    have e6 := endsWith_excludes filename ".zip".toList ".ico".toList h (by decide)
    have e7 := endsWith_excludes filename ".zip".toList ".xml".toList h (by decide)
    have e8 := endsWith_excludes filename ".zip".toList ".pdf".toList h (by decide)
    simp only [getContentType, h, e0, e1, e2, e3, e4, e5, e6, e7, e8, Bool.false_eq_true, if_false, if_true]
  · intro h0 h1 h2 h3 h4 h5 h6 h7 h8 h9
    simp only [getContentType, h0, h1, h2, h3, h4, h5, h6, h7, h8, h9, Bool.false_eq_true, if_false]

/-- C3, amended, at the name `/logo.png`. -/
theorem getContentType_table_witness :
    endsWith "/logo.png".toList ".png".toList = true
    ∧ getContentType false "/logo.png".toList = "image/png".toList :=
  ⟨by decide, (getContentType_table "/logo.png".toList).2.2.2.2.1 (by decide)⟩

/-! ## Upload pipeline (C4, C5) -/

theorem FS.set_same (fs : FS) (p : Str) (c : List Nat) : (fs.set p c) p = some c := by
  simp [FS.set]

theorem FS.set_set (fs : FS) (p : Str) (c d : List Nat) :
    (fs.set p c).set p d = fs.set p d := by
  funext q
  by_cases h : q = p <;> simp [FS.set, h]

theorem isAuthorized_iff (ota_secret token : Str) :
    isAuthorized ota_secret token = true ↔ cstr token = cstr ota_secret := by
  unfold isAuthorized
  split <;> simp_all

/-- While `uploadAccepted` is `false`, WRITE events change nothing. -/
theorem runUpload_writes_rejected (ota_secret token filename : Str)
    (chunks : List (Platform × List Nat)) (st : State) (h : st.uploadAccepted = false) :
    runUpload ota_secret token
      (chunks.map (fun c => (c.1, (⟨.UPLOAD_FILE_WRITE, filename, c.2⟩ : HTTPUpload)))) st = st := by
  induction chunks with
  | nil => rfl
  | cons c cs ih =>
    have hstep : handleFileUpload ota_secret c.1 token ⟨.UPLOAD_FILE_WRITE, filename, c.2⟩ st
        = st := by
      simp [handleFileUpload, h]
    simp only [runUpload, List.map_cons, List.foldl_cons, hstep]
    exact ih

/-- C4, as stated, fails: the token `s3cret` followed by a NUL and `x` differs
from the secret `s3cret`, yet the comparison with the `const char*` secret stops at
the NUL and accepts it: the session replaces `/index.html` by the uploaded bytes
and the completion handler answers 303. -/
theorem nul_suffixed_token_accepted :
    "s3cret".toList ++ [Char.ofNat 0, 'x'] ≠ "s3cret".toList
    ∧ (runUpload "s3cret".toList ("s3cret".toList ++ [Char.ofNat 0, 'x'])
        (uploadSession "/index.html".toList reliable [(reliable, [1, 2]), (reliable, [3])]
          reliable)
        (bootState (volume [("/index.html".toList, [60, 62])]))).fs "/index.html".toList
        = some [1, 2, 3]
    ∧ (bootState (volume [("/index.html".toList, [60, 62])])).fs "/index.html".toList
        = some [60, 62]
    ∧ (handleUploadResponse "s3cret".toList ("s3cret".toList ++ [Char.ofNat 0, 'x'])).code
        = 303 := by
  decide

/-- C4, amended: an upload whose START event carries a token that differs from the
configured secret as a C string (in the characters before the first NUL of each)
leaves the volume exactly as it was, for every file name, every sequence of WRITE
chunks and every behaviour of the platform: no file is opened (the handle
`uploadFile` is untouched) and nothing is created, truncated or written; the
completion handler with that token answers 401. -/
theorem unauthorized_upload_writes_nothing (ota_secret token filename : Str)
    (pfStart pfEnd : Platform) (chunks : List (Platform × List Nat)) (st : State)
    (h : cstr token ≠ cstr ota_secret) :
    (runUpload ota_secret token (uploadSession filename pfStart chunks pfEnd) st).fs = st.fs
    ∧ (runUpload ota_secret token (uploadSession filename pfStart chunks pfEnd) st).uploadFile
        = st.uploadFile
    ∧ runUpload ota_secret token (uploadSession filename pfStart chunks pfEnd) st
        = { st with uploadAccepted := false }
    ∧ handleUploadResponse ota_secret token
        = ⟨401, [], "text/plain".toList, "Unauthorized".toList⟩ := by
  have hauth : isAuthorized ota_secret token = false := by
    cases hb : isAuthorized ota_secret token
    · rfl
    · exact absurd ((isAuthorized_iff ota_secret token).1 hb) h
  have hstart : handleFileUpload ota_secret pfStart token ⟨.UPLOAD_FILE_START, filename, []⟩ st
      = { st with uploadAccepted := false } := by
    simp [handleFileUpload, hauth]
  have hwrites := runUpload_writes_rejected ota_secret token filename chunks
    { st with uploadAccepted := false } rfl
  have hrun : runUpload ota_secret token (uploadSession filename pfStart chunks pfEnd) st
      = { st with uploadAccepted := false } := by
    unfold runUpload at hwrites
    simp only [runUpload, uploadSession, List.cons_append, List.foldl_cons, List.foldl_append,
      List.foldl_nil, hstart, hwrites]
    simp [handleFileUpload]
  refine ⟨?_, ?_, hrun, ?_⟩
  · rw [hrun]
  · rw [hrun]
  · simp [handleUploadResponse, hauth]

/-- C4, amended, at sessions uploading two chunks to `/index.html` over a volume
that already holds that file, against the secret `s3cret`: once with the token
`guess`, once with a token that has a NUL in the middle of the secret. -/
theorem unauthorized_upload_writes_nothing_witness :
    cstr "guess".toList ≠ cstr "s3cret".toList
    ∧ (runUpload "s3cret".toList "guess".toList
        (uploadSession "/index.html".toList reliable [(reliable, [1, 2]), (reliable, [3])]
          reliable)
        (bootState (volume [("/index.html".toList, [60, 62])]))).fs
        = (bootState (volume [("/index.html".toList, [60, 62])])).fs
    ∧ cstr ("s3c".toList ++ [Char.ofNat 0] ++ "ret".toList) ≠ cstr "s3cret".toList
    ∧ handleUploadResponse "s3cret".toList ("s3c".toList ++ [Char.ofNat 0] ++ "ret".toList)
        = ⟨401, [], "text/plain".toList, "Unauthorized".toList⟩ :=
  ⟨by decide,
   (unauthorized_upload_writes_nothing "s3cret".toList "guess".toList "/index.html".toList
      reliable reliable [(reliable, [1, 2]), (reliable, [3])]
      (bootState (volume [("/index.html".toList, [60, 62])])) (by decide)).1,
   by decide,
   (unauthorized_upload_writes_nothing "s3cret".toList
      ("s3c".toList ++ [Char.ofNat 0] ++ "ret".toList) "/index.html".toList
      reliable reliable [] (bootState (volume [])) (by decide)).2.2.2⟩

/-- The shared block either gives up, leaving the state alone, or counts one
visit and the measured duration, both modulo `2^64`. -/
theorem openAndStream_state (pf : Platform) (startTick endTick : Nat) (st : State)
    (p : Str) (gz : Bool) (ct : Str) :
    ((openAndStream pf startTick endTick st p gz ct).ret = true →
      (openAndStream pf startTick endTick st p gz ct).state
        = { st with stats :=
            { totalVisits := (st.stats.totalVisits + 1) % U64
              totalResponseTimeMs :=
                (st.stats.totalResponseTimeMs + sub32 endTick startTick) % U64
              totalRuntimeSeconds := st.stats.totalRuntimeSeconds } })
    ∧ ((openAndStream pf startTick endTick st p gz ct).ret = false →
      (openAndStream pf startTick endTick st p gz ct).state = st) := by
  unfold openAndStream
  cases openRead pf st.fs p <;> simp [add64]

/-- C6, as stated, fails: with `totalVisits` at `2^64 - 1` a served request
(return value `true`) leaves `totalVisits` at `0`, not one higher. -/
theorem visit_counter_wraps :
    (handleDynamicRequest reliable "/a.css".toList false 10 15
      { bootState (volume [("/a.css".toList, [97])]) with
        stats := ⟨18446744073709551615, 0, 0⟩ }).ret = true
    ∧ (handleDynamicRequest reliable "/a.css".toList false 10 15
      { bootState (volume [("/a.css".toList, [97])]) with
        stats := ⟨18446744073709551615, 0, 0⟩ }).state.stats.totalVisits = 0
    ∧ (0 : Nat) ≠ 18446744073709551615 + 1 := by
  decide

/-- C6, amended: when `handleDynamicRequest` returns `true`, `totalVisits` has
become `totalVisits + 1` modulo `2^64` and `totalResponseTimeMs` has become
`totalResponseTimeMs + duration` modulo `2^64`, where `duration` is the 32-bit
difference of the two `millis()` readings (so the increases are exactly `1` and
`duration` whenever the sums fit in 64 bits), both together, and nothing else in
the state changes; when it returns `false` the state, the stats record included,
is unchanged. -/
theorem handleDynamicRequest_stats (pf : Platform) (uri : Str) (hasDownload : Bool)
    (startTick endTick : Nat) (st : State) :
    ((handleDynamicRequest pf uri hasDownload startTick endTick st).ret = true →
      (handleDynamicRequest pf uri hasDownload startTick endTick st).state
        = { st with stats :=
            { totalVisits := (st.stats.totalVisits + 1) % U64
              totalResponseTimeMs :=
                (st.stats.totalResponseTimeMs + sub32 endTick startTick) % U64
              totalRuntimeSeconds := st.stats.totalRuntimeSeconds } }
      ∧ (st.stats.totalVisits + 1 < U64 →
          (handleDynamicRequest pf uri hasDownload startTick endTick st).state.stats.totalVisits
            = st.stats.totalVisits + 1)
      ∧ (st.stats.totalResponseTimeMs + sub32 endTick startTick < U64 →
          (handleDynamicRequest pf uri hasDownload startTick endTick
              st).state.stats.totalResponseTimeMs
            = st.stats.totalResponseTimeMs + sub32 endTick startTick))
    ∧ ((handleDynamicRequest pf uri hasDownload startTick endTick st).ret = false →
      (handleDynamicRequest pf uri hasDownload startTick endTick st).state = st) := by
  have key :
      ((handleDynamicRequest pf uri hasDownload startTick endTick st).ret = true →
        (handleDynamicRequest pf uri hasDownload startTick endTick st).state
          = { st with stats :=
              { totalVisits := (st.stats.totalVisits + 1) % U64
                totalResponseTimeMs :=
                  (st.stats.totalResponseTimeMs + sub32 endTick startTick) % U64
                totalRuntimeSeconds := st.stats.totalRuntimeSeconds } })
      ∧ ((handleDynamicRequest pf uri hasDownload startTick endTick st).ret = false →
        (handleDynamicRequest pf uri hasDownload startTick endTick st).state = st) := by
    unfold handleDynamicRequest
    simp only []
    split
    · exact openAndStream_state _ _ _ _ _ _ _
    · split
      · split
        · exact openAndStream_state _ _ _ _ _ _ _
        · simp
      · simp
  refine ⟨fun h => ?_, key.2⟩
  have hs := key.1 h
  refine ⟨hs, fun hv => ?_, fun hr => ?_⟩
  · rw [hs]
    exact Nat.mod_eq_of_lt hv
  · rw [hs]
    exact Nat.mod_eq_of_lt hr

/-- C6, amended, at a served request that took 5 ms on a device with 41 earlier
visits. -/
theorem handleDynamicRequest_stats_witness :
    (handleDynamicRequest reliable "/a.css".toList false 10 15
      { bootState (volume [("/a.css".toList, [97])]) with stats := ⟨41, 900, 7⟩ }).state.stats
      = ⟨42, 905, 7⟩ :=
  congrArg State.stats
    ((handleDynamicRequest_stats reliable "/a.css".toList false 10 15
      { bootState (volume [("/a.css".toList, [97])]) with stats := ⟨41, 900, 7⟩ }).1
      (by decide)).1

/-! ## Periodic flush (C7) -/

theorem saveStats_frame (pf : Platform) (st : State) :
    (saveStats pf st).stats = st.stats ∧ (saveStats pf st).lastSaveTime = st.lastSaveTime
    ∧ (saveStats pf st).uploadFile = st.uploadFile
    ∧ (saveStats pf st).uploadAccepted = st.uploadAccepted := by
  unfold saveStats openWrite
  cases pf.openOk STATS_FILE <;> simp

theorem sub32_self (n : Nat) : sub32 (n % U32) (n % U32) = 0 := by
  have h : n % U32 < U32 := Nat.mod_lt _ (by decide)
  have h2 : n % U32 % U32 = n % U32 := Nat.mod_eq_of_lt h
  unfold sub32
  rw [h2, Nat.add_sub_cancel' (Nat.le_of_lt h)]
  exact Nat.mod_self _

theorem sub32_of_le (a b : Nat) (ha : a < U32) (hb : b ≤ a) : sub32 a b = a - b := by
  unfold sub32
  have hb2 : b < U32 := Nat.lt_of_le_of_lt hb ha
  rw [Nat.mod_eq_of_lt ha, Nat.mod_eq_of_lt hb2]
  have : a + (U32 - b) = (a - b) + U32 := by omega
  rw [this, Nat.add_mod_right]
  exact Nat.mod_eq_of_lt (by omega)

theorem loop_of_not_due (pf : Platform) (m1 m2 : Nat) (st : State)
    (h : flushDue m1 st = false) : loop pf m1 m2 st = st := by
  simp only [loop, h, Bool.false_eq_true, if_false]

/-- C7, as stated, fails: with `totalRuntimeSeconds` at `2^64 - 1`, a flush after
3,700,000 ms leaves `totalRuntimeSeconds` at `3699`, not 3700 higher. -/
theorem runtime_counter_wraps :
    flushDue 3700000 { bootState (volume []) with stats := ⟨0, 0, 18446744073709551615⟩ } = true
    ∧ (loop reliable 3700000 3700000
        { bootState (volume []) with
          stats := ⟨0, 0, 18446744073709551615⟩ }).stats.totalRuntimeSeconds = 3699
    ∧ (3699 : Nat) ≠ 18446744073709551615 + 3700000 / 1000 := by
  decide

/-- C7, amended: with `elapsed` the 32-bit difference `now - lastSaveTime`, one
pass of the flush check at uptime `now` flushes if and only if
`elapsed >= 3,600,000`; a flush sets `totalRuntimeSeconds` to
`totalRuntimeSeconds + elapsed / 1000` modulo `2^64` (an increase by exactly
`elapsed / 1000` whenever the sum fits in 64 bits), calls `saveStats` once on the
updated record and sets `lastSaveTime` to `now`, so that a second pass at the same
uptime does not flush; without a flush the state is unchanged. -/
theorem loop_flush (pf : Platform) (now : Nat) (st : State) (hnow : now < U32) :
    (flushDue now st = true ↔ sub32 now st.lastSaveTime ≥ 3600000)
    ∧ (st.lastSaveTime ≤ now → sub32 now st.lastSaveTime = now - st.lastSaveTime)
    ∧ (flushDue now st = true →
        loop pf now now st
          = { saveStats pf { st with stats := { st.stats with
                totalRuntimeSeconds :=
                  (st.stats.totalRuntimeSeconds + sub32 now st.lastSaveTime / 1000) % U64 } }
              with lastSaveTime := now }
        ∧ (loop pf now now st).stats
          = { st.stats with
              totalRuntimeSeconds :=
                (st.stats.totalRuntimeSeconds + sub32 now st.lastSaveTime / 1000) % U64 }
        ∧ (st.stats.totalRuntimeSeconds + sub32 now st.lastSaveTime / 1000 < U64 →
            (loop pf now now st).stats.totalRuntimeSeconds
              = st.stats.totalRuntimeSeconds + sub32 now st.lastSaveTime / 1000)
        ∧ (loop pf now now st).lastSaveTime = now
        ∧ ∀ pf2 : Platform, flushDue now (loop pf now now st) = false
            ∧ loop pf2 now now (loop pf now now st) = loop pf now now st)
    ∧ (flushDue now st = false → loop pf now now st = st) := by
  have hmod : now % U32 = now := Nat.mod_eq_of_lt hnow
  refine ⟨?_, fun hle => sub32_of_le now st.lastSaveTime hnow hle, fun hdue => ?_, fun hdue => ?_⟩
  · simp [flushDue, SAVE_INTERVAL_MS]
  · have hloop : loop pf now now st
        = { saveStats pf { st with stats := { st.stats with
              totalRuntimeSeconds :=
                (st.stats.totalRuntimeSeconds + sub32 now st.lastSaveTime / 1000) % U64 } }
            with lastSaveTime := now } := by
      simp only [loop, hdue, if_true, hmod, add64]
    have hlast : (loop pf now now st).lastSaveTime = now := by rw [hloop]
    have hstats : (loop pf now now st).stats
        = { st.stats with
            totalRuntimeSeconds :=
              (st.stats.totalRuntimeSeconds + sub32 now st.lastSaveTime / 1000) % U64 } := by
      rw [hloop]
      exact (saveStats_frame pf _).1
    have hagain : flushDue now (loop pf now now st) = false := by
      have h0 := sub32_self now
      rw [hmod] at h0
      simp [flushDue, hlast, h0, SAVE_INTERVAL_MS]
    refine ⟨hloop, hstats, fun hfit => ?_, hlast, fun pf2 => ⟨hagain, ?_⟩⟩
    · rw [hstats]
      exact Nat.mod_eq_of_lt hfit
    · exact loop_of_not_due pf2 now now _ hagain
  · exact loop_of_not_due pf now now st hdue

/-- C7, amended, at `lastSaveTime = 0` and `now = 3,700,000`: one flush, 3700
seconds added, and no second flush at the same uptime. -/
theorem loop_flush_witness :
    (3700000 : Nat) < U32
    ∧ flushDue 3700000 { bootState (volume []) with stats := ⟨5, 60, 100⟩ } = true
    ∧ (loop reliable 3700000 3700000
        { bootState (volume []) with stats := ⟨5, 60, 100⟩ }).stats.totalRuntimeSeconds
        = 100 + 3700
    ∧ flushDue 3700000 (loop reliable 3700000 3700000
        { bootState (volume []) with stats := ⟨5, 60, 100⟩ }) = false :=
  ⟨by decide, by decide,
   ((loop_flush reliable 3700000 { bootState (volume []) with stats := ⟨5, 60, 100⟩ }
      (by decide)).2.2.1 (by decide)).2.2.1 (by decide),
   (((loop_flush reliable 3700000 { bootState (volume []) with stats := ⟨5, 60, 100⟩ }
      (by decide)).2.2.1 (by decide)).2.2.2.2 reliable).1⟩

/-! ## Stats record on flash (C8) -/

theorem bytesLE_length (k n : Nat) : (bytesLE k n).length = k := by
  induction k generalizing n with
  | zero => rfl
  | succ k ih => simp [bytesLE, ih]

theorem ofBytesLE_bytesLE (k n : Nat) : ofBytesLE (bytesLE k n) = n % 256 ^ k := by
  induction k generalizing n with
  | zero => simp [bytesLE, ofBytesLE, Nat.mod_one]
  | succ k ih =>
    simp only [bytesLE, ofBytesLE, ih, Nat.mod_mod]
    rw [Nat.pow_succ, Nat.mul_comm (256 ^ k) 256, Nat.mod_mul]

theorem statsBytes_length (r : PersistentStats) : (statsBytes r).length = sizeofStats := by
  simp [statsBytes, bytesLE_length, sizeofStats]

/-- Decoding the memory image of a record gives the record back. -/
theorem statsOfBytes_statsBytes (r : PersistentStats) (hwf : r.wf) :
    statsOfBytes (statsBytes r) = r := by
  obtain ⟨h1, h2, h3⟩ := hwf
  have e1 : (statsBytes r).take 8 = bytesLE 8 r.totalVisits := by
    unfold statsBytes
    rw [List.append_assoc]
    exact List.take_left' (bytesLE_length 8 _)
  have e2 : ((statsBytes r).drop 8).take 8 = bytesLE 8 r.totalResponseTimeMs := by
    unfold statsBytes
    rw [List.append_assoc, List.drop_left' (bytesLE_length 8 _)]
    exact List.take_left' (bytesLE_length 8 _)
  have e3 : ((statsBytes r).drop 16).take 8 = bytesLE 8 r.totalRuntimeSeconds := by
    unfold statsBytes
    rw [List.drop_left' (by simp [bytesLE_length])]
    exact List.take_of_length_le (by simp [bytesLE_length])
  have hpow : 256 ^ 8 = U64 := by decide
  cases r
  simp only [statsOfBytes, e1, e2, e3, ofBytesLE_bytesLE, hpow] at *
  simp [Nat.mod_eq_of_lt h1, Nat.mod_eq_of_lt h2, Nat.mod_eq_of_lt h3]

/-- A save whose open succeeds and whose write stores all 24 bytes leaves the
memory image of the record in the stats file. -/
theorem saveStats_fs (pf : Platform) (st : State) (hopen : pf.openOk STATS_FILE = true)
    (hwrite : sizeofStats ≤ pf.written sizeofStats) :
    (saveStats pf st).fs = st.fs.set STATS_FILE (statsBytes st.stats) := by
  have hmin : min (pf.written (statsBytes st.stats).length) (statsBytes st.stats).length
      = (statsBytes st.stats).length := by
    rw [statsBytes_length]
    exact Nat.min_eq_right hwrite
  simp only [saveStats, openWrite, hopen, if_true, fileWrite, hmin, FS.set_same, FS.set_set,
    Option.getD_some, List.nil_append, List.take_length]

/-- C8, as stated, fails. With the open of `saveStats` succeeding but its write
storing no byte, the stats file is empty rather than 24 bytes long and a later
`loadStats` leaves the in-memory record `{7, 8, 9}` as it was instead of making it
the saved `{1, 2, 3}`; and after a complete save, a `loadStats` whose own open
fails also leaves `{7, 8, 9}`. -/
theorem roundtrip_needs_write_and_open :
    ((saveStats fullFlash { bootState (volume []) with stats := ⟨1, 2, 3⟩ }).fs STATS_FILE
        = some []
      ∧ (loadStats reliable
          { saveStats fullFlash { bootState (volume []) with stats := ⟨1, 2, 3⟩ } with
            stats := ⟨7, 8, 9⟩ }).stats = ⟨7, 8, 9⟩)
    ∧ (((saveStats reliable { bootState (volume []) with stats := ⟨1, 2, 3⟩ }).fs STATS_FILE).map
          List.length = some 24
      ∧ (loadStats refusing
          { saveStats reliable { bootState (volume []) with stats := ⟨1, 2, 3⟩ } with
            stats := ⟨7, 8, 9⟩ }).stats = ⟨7, 8, 9⟩)
    ∧ (⟨7, 8, 9⟩ : PersistentStats) ≠ ⟨1, 2, 3⟩ := by
  decide

/-- C8, amended: for every record `r` of three unsigned 64-bit fields, running
`saveStats` on `r` (its open succeeding and its write storing all 24 bytes) and
then `loadStats` (its open succeeding) into any in-memory record yields `r`
field for field; the persisted file holds the 24-byte memory image of `r`. -/
theorem saveStats_loadStats_roundtrip (pfSave pfLoad : Platform) (st : State)
    (r0 : PersistentStats) (hwf : st.stats.wf)
    (hopenSave : pfSave.openOk STATS_FILE = true)
    (hwrite : sizeofStats ≤ pfSave.written sizeofStats)
    (hopenLoad : pfLoad.openOk STATS_FILE = true) :
    (loadStats pfLoad { saveStats pfSave st with stats := r0 }).stats = st.stats
    ∧ (saveStats pfSave st).fs STATS_FILE = some (statsBytes st.stats)
    ∧ (statsBytes st.stats).length = 24 := by
  have hfs : (saveStats pfSave st).fs STATS_FILE = some (statsBytes st.stats) := by
    rw [saveStats_fs pfSave st hopenSave hwrite, FS.set_same]
  have hlen : (statsBytes st.stats).length = sizeofStats := statsBytes_length _
  have hlen0 : (statsBytes r0).length = sizeofStats := statsBytes_length _
  refine ⟨?_, hfs, hlen⟩
  have htake : (statsBytes st.stats).take sizeofStats = statsBytes st.stats :=
    List.take_of_length_le (Nat.le_of_eq hlen)
  have hdrop : (statsBytes r0).drop (statsBytes st.stats).length = [] :=
    List.drop_of_length_le (by rw [hlen, hlen0])
  simp only [loadStats, FS.fileExists, hfs, Option.isSome_some, if_true, openRead, hopenLoad,
    htake, hdrop, List.append_nil]
  exact statsOfBytes_statsBytes st.stats hwf

/-- C8, amended, at the record `{1, 258, 2^64 - 1}` loaded over `{7, 8, 9}`. -/
theorem saveStats_loadStats_roundtrip_witness :
    (loadStats reliable
      { saveStats reliable
          { bootState (volume []) with stats := ⟨1, 258, 18446744073709551615⟩ } with
        stats := ⟨7, 8, 9⟩ }).stats = ⟨1, 258, 18446744073709551615⟩ :=
  (saveStats_loadStats_roundtrip reliable reliable
    { bootState (volume []) with stats := ⟨1, 258, 18446744073709551615⟩ } ⟨7, 8, 9⟩
    (by decide) (by decide) (by decide) (by decide)).1

/-! ## Lifetime uptime (C9) -/

/-- C9 at a first boot (no stats file) with one flush at an uptime of 3,600,000
ms: the flush folds the 3600 seconds of the session into `totalRuntimeSeconds`,
and a status request at that same uptime adds the whole session again, reporting
7200 seconds where the record loaded at boot plus the session uptime is 3600. -/
theorem lifetime_uptime_double_counts :
    (loadStats reliable (bootState (volume []))).stats.totalRuntimeSeconds = 0
    ∧ currentSessionSecs 3600000 = 3600
    ∧ (loop reliable 3600000 3600000
        (loadStats reliable (bootState (volume [])))).stats.totalRuntimeSeconds = 3600
    ∧ totalLifetimeSecs
        (loop reliable 3600000 3600000 (loadStats reliable (bootState (volume []))))
        3600000 = 7200 := by
  decide

/-! ## Loading without a readable record (C10) -/

/-- C10: from the boot-time record `{0, 0, 0}`, `loadStats` (a total function)
leaves the record `{0, 0, 0}`, and the rest of the state untouched, when the stats
file is missing and also when it exists but the open yields no valid `File`. -/
theorem loadStats_missing_or_unopenable (pf : Platform) (fs : FS)
    (h : fs.fileExists STATS_FILE = false
      ∨ (fs.fileExists STATS_FILE = true ∧ pf.openOk STATS_FILE = false)) :
    (loadStats pf (bootState fs)).stats = ⟨0, 0, 0⟩
    ∧ loadStats pf (bootState fs) = bootState fs := by
  have hrun : loadStats pf (bootState fs) = bootState fs := by
    rcases h with h | ⟨_, h⟩
    · simp [loadStats, bootState, h]
    · simp [loadStats, bootState, openRead, h]
  exact ⟨by rw [hrun]; rfl, hrun⟩

/-- C10 on an empty volume, and on a volume whose stats file cannot be opened. -/
theorem loadStats_missing_or_unopenable_witness :
    (loadStats reliable (bootState (volume []))).stats = ⟨0, 0, 0⟩
    ∧ (volume [(STATS_FILE, [5, 0, 0, 0, 0, 0, 0, 0])]).fileExists STATS_FILE = true
    ∧ (loadStats refusing
        (bootState (volume [(STATS_FILE, [5, 0, 0, 0, 0, 0, 0, 0])]))).stats = ⟨0, 0, 0⟩ :=
  ⟨(loadStats_missing_or_unopenable reliable (volume []) (Or.inl (by decide))).1,
   by decide,
   (loadStats_missing_or_unopenable refusing (volume [(STATS_FILE, [5, 0, 0, 0, 0, 0, 0, 0])])
      (Or.inr ⟨by decide, by decide⟩)).1⟩

/-! ## Loading a short record (C11) -/

theorem ofBytesLE_zeros (l : List Nat) (h : ∀ b ∈ l, b = 0) : ofBytesLE l = 0 := by
  induction l with
  | nil => rfl
  | cons b bs ih =>
    have hb : b = 0 := h b (List.mem_cons_self _ _)
    have hbs := ih (fun c hc => h c (List.mem_cons_of_mem _ hc))
    simp [ofBytesLE, hb, hbs]

/-- Past the bytes of a short file, the image padded with zeros holds zeros only. -/
theorem padded_tail_zero (content : List Nat) (n k : Nat) (h : content.length ≤ k) :
    ∀ b ∈ ((content ++ List.replicate n 0).drop k).take 8, b = 0 := by
  intro b hb
  have h1 := List.mem_of_mem_take hb
  rw [List.drop_append_eq_append_drop, List.drop_of_length_le h, List.nil_append] at h1
  exact List.eq_of_mem_replicate (List.mem_of_mem_drop h1)

/-- What `loadStats` makes of the boot-time record when the stats file holds fewer
than `sizeof(stats)` bytes. -/
theorem loadStats_short (pf : Platform) (fs : FS) (content : List Nat)
    (hfile : fs STATS_FILE = some content) (hshort : content.length < sizeofStats) :
    (loadStats pf (bootState fs)).stats
      = if pf.openOk STATS_FILE
        then statsOfBytes (content ++ List.replicate (sizeofStats - content.length) 0)
        else ⟨0, 0, 0⟩ := by
  have htake : content.take sizeofStats = content :=
    List.take_of_length_le (Nat.le_of_lt hshort)
  have hzero : statsBytes ⟨0, 0, 0⟩ = List.replicate sizeofStats 0 := by decide
  cases hp : pf.openOk STATS_FILE
  · simp [loadStats, bootState, FS.fileExists, hfile, openRead, hp]
  · simp only [loadStats, bootState, FS.fileExists, hfile, Option.isSome_some, if_true,
      openRead, hp, htake, hzero, List.drop_replicate]

/-- C11, as stated, fails: from the boot-time record `{0, 0, 0}`, a stats file
holding the single byte `5` (fewer than 24 bytes) leaves `totalVisits = 5`. -/
theorem short_record_not_zeroed :
    (volume [(STATS_FILE, [5])]).fileExists STATS_FILE = true
    ∧ ((volume [(STATS_FILE, [5])]) STATS_FILE).map List.length = some 1
    ∧ (loadStats reliable (bootState (volume [(STATS_FILE, [5])]))).stats = ⟨5, 0, 0⟩
    ∧ (⟨5, 0, 0⟩ : PersistentStats) ≠ ⟨0, 0, 0⟩ := by
  decide

/-- C11, amended: starting from the boot-time record `{0, 0, 0}`, if the stats file
exists but holds `k < 24` bytes, then after `loadStats` the record is the one whose
24-byte image is those `k` bytes followed by zeros (and still `{0, 0, 0}` when the
open fails); so every field is 0 when no byte is read, `totalRuntimeSeconds` is 0
when `k <= 16`, and `totalResponseTimeMs` is 0 when `k <= 8`. -/
theorem loadStats_short_record (pf : Platform) (fs : FS) (content : List Nat)
    (hfile : fs STATS_FILE = some content) (hshort : content.length < sizeofStats) :
    (loadStats pf (bootState fs)).stats
      = (if pf.openOk STATS_FILE
        then statsOfBytes (content ++ List.replicate (sizeofStats - content.length) 0)
        else ⟨0, 0, 0⟩)
    ∧ (content = [] → (loadStats pf (bootState fs)).stats = ⟨0, 0, 0⟩)
    ∧ (content.length ≤ 16 → (loadStats pf (bootState fs)).stats.totalRuntimeSeconds = 0)
    ∧ (content.length ≤ 8 → (loadStats pf (bootState fs)).stats.totalResponseTimeMs = 0) := by
  have hrun := loadStats_short pf fs content hfile hshort
  refine ⟨hrun, ?_, ?_, ?_⟩
  · intro hnil
    rw [hrun]
    subst hnil
    cases pf.openOk STATS_FILE
    · rfl
    · decide
  · intro hk
    rw [hrun]
    cases pf.openOk STATS_FILE
    · rfl
    · exact ofBytesLE_zeros _ (padded_tail_zero content _ 16 hk)
  · intro hk
    rw [hrun]
    cases pf.openOk STATS_FILE
    · rfl
    · exact ofBytesLE_zeros _ (padded_tail_zero content _ 8 hk)

/-- C11, amended, at a stats file holding the nine bytes `5, 0, 0, 0, 0, 0, 0, 0, 1`:
the visits are 5, the response time is 1, the runtime stays 0. -/
theorem loadStats_short_record_witness :
    (loadStats reliable
      (bootState (volume [(STATS_FILE, [5, 0, 0, 0, 0, 0, 0, 0, 1])]))).stats = ⟨5, 1, 0⟩ :=
  (loadStats_short_record reliable (volume [(STATS_FILE, [5, 0, 0, 0, 0, 0, 0, 0, 1])])
    [5, 0, 0, 0, 0, 0, 0, 0, 1] (by decide) (by decide)).1

/-! ## Directory requests (C12) -/

/-- A string that ends in `index` does not end in a slash. -/
theorem not_endsWith_slash_index (uri : Str) :
    endsWith (uri ++ "index".toList) ['/'] = false := by
  simp [endsWith, List.isSuffixOf, List.isPrefixOf]

/-- C12: for every request path `P` ending in a slash, every volume, platform
behaviour and request arguments, `handleDynamicRequest` on `P` gives the very
outcome it gives on `P + "index"`: same file opened and streamed, same content
type, same return value, same state afterwards. -/
theorem handleDynamicRequest_directory (pf : Platform) (uri : Str) (hasDownload : Bool)
    (startTick endTick : Nat) (st : State) (hslash : endsWith uri ['/'] = true) :
    handleDynamicRequest pf uri hasDownload startTick endTick st
      = handleDynamicRequest pf (uri ++ "index".toList) hasDownload startTick endTick st := by
  have h1 : normalizePath uri = uri ++ "index".toList := by
    simp only [normalizePath, hslash, if_true]
  have h2 : normalizePath (uri ++ "index".toList) = uri ++ "index".toList := by
    simp only [normalizePath, not_endsWith_slash_index, Bool.false_eq_true, if_false]
  simp only [handleDynamicRequest, h1, h2]

/-- C12 at the request `/` with `/index.html.gz` stored: it is answered as
`/index` is, with `/index.html.gz`, compressed, as `text/html`. -/
theorem handleDynamicRequest_directory_witness :
    endsWith "/".toList ['/'] = true
    ∧ handleDynamicRequest reliable "/".toList false 0 3
        (bootState (volume [("/index.html.gz".toList, [31, 139])]))
      = handleDynamicRequest reliable ("/".toList ++ "index".toList) false 0 3
        (bootState (volume [("/index.html.gz".toList, [31, 139])]))
    ∧ (handleDynamicRequest reliable "/".toList false 0 3
        (bootState (volume [("/index.html.gz".toList, [31, 139])]))).streamed
      = some ⟨"/index.html.gz".toList, true, "text/html".toList⟩ :=
  ⟨by decide,
   handleDynamicRequest_directory reliable "/".toList false 0 3
     (bootState (volume [("/index.html.gz".toList, [31, 139])])) (by decide),
   by decide⟩

/-! ## No fallback for paths with an extension (C13) -/

/-- C13: for every request path `P` with an extension (a dot after the last
slash), if neither `P + ".gz"` nor `P` exists, `handleDynamicRequest` returns
`false`, opens and streams nothing and leaves the state alone, whatever else the
volume holds, `P + ".html"` and `P + ".html.gz"` included. -/
theorem handleDynamicRequest_no_fallback (pf : Platform) (uri : Str) (hasDownload : Bool)
    (startTick endTick : Nat) (st : State)
    (hext : lastIndexOf uri '/' < lastIndexOf uri '.')
    (hgz : st.fs.fileExists (uri ++ ".gz".toList) = false)
    (hp : st.fs.fileExists uri = false) :
    (handleDynamicRequest pf uri hasDownload startTick endTick st).ret = false
    ∧ (handleDynamicRequest pf uri hasDownload startTick endTick st).opened = none
    ∧ (handleDynamicRequest pf uri hasDownload startTick endTick st).streamed = none
    ∧ (handleDynamicRequest pf uri hasDownload startTick endTick st).state = st := by
  have hnorm : normalizePath uri = uri := by
    simp [normalizePath, not_endsWith_slash_of_ext uri hext]
  have hno : ¬ (lastIndexOf uri '.' ≤ lastIndexOf uri '/') := by omega
  simp only [handleDynamicRequest, hnorm, hgz, hp, Bool.or_self, Bool.false_eq_true, if_false,
    hno]
  exact ⟨trivial, trivial, trivial, trivial⟩

/-- C13 at the request `/page.xml` with only `/page.xml.html` and
`/page.xml.html.gz` stored. -/
theorem handleDynamicRequest_no_fallback_witness :
    (volume [("/page.xml.html".toList, [60]),
      ("/page.xml.html.gz".toList, [31, 139])]).fileExists "/page.xml.html".toList = true
    ∧ (handleDynamicRequest reliable "/page.xml".toList false 0 3
        (bootState (volume [("/page.xml.html".toList, [60]),
          ("/page.xml.html.gz".toList, [31, 139])]))).ret = false :=
  ⟨by decide,
   (handleDynamicRequest_no_fallback reliable "/page.xml".toList false 0 3
      (bootState (volume [("/page.xml.html".toList, [60]),
        ("/page.xml.html.gz".toList, [31, 139])]))
      (by decide) (by decide) (by decide)).1⟩

/-! ## Unknown extensions (C14) -/

theorem getContentType_plain (filename : Str)
    (h0 : endsWith filename ".html".toList = false)
    (h1 : endsWith filename ".css".toList = false)
    (h2 : endsWith filename ".js".toList = false)
    (h3 : endsWith filename ".png".toList = false)
    (h4 : endsWith filename ".gif".toList = false)
    (h5 : endsWith filename ".jpg".toList = false)
    (h6 : endsWith filename ".ico".toList = false)
    (h7 : endsWith filename ".xml".toList = false)
    (h8 : endsWith filename ".pdf".toList = false)
    (h9 : endsWith filename ".zip".toList = false) :
    getContentType false filename = "text/plain".toList := by
  simp only [getContentType, h0, h1, h2, h3, h4, h5, h6, h7, h8, h9, Bool.false_eq_true,
    if_false]

/-- A name ending in `index` ends in none of the suffixes `getContentType` knows. -/
theorem getContentType_index (uri : Str) :
    getContentType false (uri ++ "index".toList) = "text/plain".toList := by
  have i0 : endsWith (uri ++ "index".toList) ".html".toList = false := by
    simp [endsWith, List.isSuffixOf, List.isPrefixOf]
  have i1 : endsWith (uri ++ "index".toList) ".css".toList = false := by
    simp [endsWith, List.isSuffixOf, List.isPrefixOf]
  have i2 : endsWith (uri ++ "index".toList) ".js".toList = false := by
    simp [endsWith, List.isSuffixOf, List.isPrefixOf]
  have i3 : endsWith (uri ++ "index".toList) ".png".toList = false := by
    simp [endsWith, List.isSuffixOf, List.isPrefixOf]
  have i4 : endsWith (uri ++ "index".toList) ".gif".toList = false := by
    simp [endsWith, List.isSuffixOf, List.isPrefixOf]
  have i5 : endsWith (uri ++ "index".toList) ".jpg".toList = false := by
    simp [endsWith, List.isSuffixOf, List.isPrefixOf]
  have i6 : endsWith (uri ++ "index".toList) ".ico".toList = false := by
    simp [endsWith, List.isSuffixOf, List.isPrefixOf]
  have i7 : endsWith (uri ++ "index".toList) ".xml".toList = false := by
    simp [endsWith, List.isSuffixOf, List.isPrefixOf]
  have i8 : endsWith (uri ++ "index".toList) ".pdf".toList = false := by
    simp [endsWith, List.isSuffixOf, List.isPrefixOf]
  have i9 : endsWith (uri ++ "index".toList) ".zip".toList = false := by
    simp [endsWith, List.isSuffixOf, List.isPrefixOf]
  exact getContentType_plain _ i0 i1 i2 i3 i4 i5 i6 i7 i8 i9

/-- C14, as stated, fails: with only `/data.json` stored and `LittleFS.open`
handing back an invalid `File`, the request `/data.json` streams nothing; and the
request `/d/`, with an entry `/d/` and no `/d/.gz`, is looked up as `/d/index` and
finds no match. -/
theorem plain_not_streamed :
    ((volume [("/data.json".toList, [123, 125])]).fileExists "/data.json".toList = true
      ∧ (volume [("/data.json".toList, [123, 125])]).fileExists
          ("/data.json".toList ++ ".gz".toList) = false
      ∧ (handleDynamicRequest refusing "/data.json".toList false 0 0
          (bootState (volume [("/data.json".toList, [123, 125])]))).streamed = none)
    ∧ ((volume [("/d/".toList, [])]).fileExists "/d/".toList = true
      ∧ (volume [("/d/".toList, [])]).fileExists ("/d/".toList ++ ".gz".toList) = false
      ∧ getContentType false "/d/".toList = "text/plain".toList
      ∧ (handleDynamicRequest reliable "/d/".toList false 0 0
          (bootState (volume [("/d/".toList, [])]))).streamed = none) := by
  decide

/-- C14, amended: for every request path `P` ending in none of the ten suffixes
`getContentType` knows, with no `download` argument, let `Q` be `P` with `index`
appended when `P` ends in a slash, else `P`. If `Q` exists and `Q + ".gz"` does
not, `handleDynamicRequest` opens `Q` and, exactly when that open yields a valid
`File`, streams `Q` itself, uncompressed, with content type `text/plain`. -/
theorem handleDynamicRequest_plain (pf : Platform) (uri : Str) (startTick endTick : Nat)
    (st : State)
    (h0 : endsWith uri ".html".toList = false)
    (h1 : endsWith uri ".css".toList = false)
    (h2 : endsWith uri ".js".toList = false)
    (h3 : endsWith uri ".png".toList = false)
    (h4 : endsWith uri ".gif".toList = false)
    (h5 : endsWith uri ".jpg".toList = false)
    (h6 : endsWith uri ".ico".toList = false)
    (h7 : endsWith uri ".xml".toList = false)
    (h8 : endsWith uri ".pdf".toList = false)
    (h9 : endsWith uri ".zip".toList = false)
    (hgz : st.fs.fileExists (normalizePath uri ++ ".gz".toList) = false)
    (hp : st.fs.fileExists (normalizePath uri) = true) :
    (handleDynamicRequest pf uri false startTick endTick st).opened = some (normalizePath uri)
    ∧ (handleDynamicRequest pf uri false startTick endTick st).ret
        = pf.openOk (normalizePath uri)
    ∧ (handleDynamicRequest pf uri false startTick endTick st).streamed
        = if pf.openOk (normalizePath uri)
          then some ⟨normalizePath uri, false, "text/plain".toList⟩ else none := by
  have hct : getContentType false (normalizePath uri) = "text/plain".toList := by
    unfold normalizePath
    split
    · exact getContentType_index uri
    · exact getContentType_plain uri h0 h1 h2 h3 h4 h5 h6 h7 h8 h9
  have h := openAndStream_of_exists pf startTick endTick st (normalizePath uri) false
    "text/plain".toList hp
  simp only [handleDynamicRequest, hgz, hp, hct, Bool.false_or, if_true, Bool.false_eq_true,
    if_false, h]
  cases pf.openOk (normalizePath uri) <;> simp

/-- C14, amended, at the request `/data.json` with only `/data.json` stored. -/
theorem handleDynamicRequest_plain_witness :
    (handleDynamicRequest reliable "/data.json".toList false 0 4
      (bootState (volume [("/data.json".toList, [123, 125])]))).streamed
      = some ⟨"/data.json".toList, false, "text/plain".toList⟩ :=
  (handleDynamicRequest_plain reliable "/data.json".toList 0 4
    (bootState (volume [("/data.json".toList, [123, 125])]))
    (by decide) (by decide) (by decide) (by decide) (by decide) (by decide) (by decide)
    (by decide) (by decide) (by decide) (by decide) (by decide)).2.2

/-! ## What each handler changes -/

/-- The state after `handleDynamicRequest`: one visit counted when it returns
`true`, nothing changed when it returns `false`. -/
theorem handleDynamicRequest_state (pf : Platform) (uri : Str) (hasDownload : Bool)
    (startTick endTick : Nat) (st : State) :
    ((handleDynamicRequest pf uri hasDownload startTick endTick st).ret = true →
      (handleDynamicRequest pf uri hasDownload startTick endTick st).state
        = { st with stats :=
            { totalVisits := (st.stats.totalVisits + 1) % U64
              totalResponseTimeMs :=
                (st.stats.totalResponseTimeMs + sub32 endTick startTick) % U64
              totalRuntimeSeconds := st.stats.totalRuntimeSeconds } })
    ∧ ((handleDynamicRequest pf uri hasDownload startTick endTick st).ret = false →
      (handleDynamicRequest pf uri hasDownload startTick endTick st).state = st) := by
  unfold handleDynamicRequest
  simp only []
  split
  · exact openAndStream_state _ _ _ _ _ _ _
  · split
    · split
      · exact openAndStream_state _ _ _ _ _ _ _
      · simp
    · simp

theorem handleDynamicRequest_frame (pf : Platform) (uri : Str) (hasDownload : Bool)
    (startTick endTick : Nat) (st : State) :
    (handleDynamicRequest pf uri hasDownload startTick endTick st).state.stats.totalRuntimeSeconds
        = st.stats.totalRuntimeSeconds
    ∧ (handleDynamicRequest pf uri hasDownload startTick endTick st).state.lastSaveTime
        = st.lastSaveTime := by
  have h := handleDynamicRequest_state pf uri hasDownload startTick endTick st
  cases hr : (handleDynamicRequest pf uri hasDownload startTick endTick st).ret
  · rw [h.2 hr]
    exact ⟨rfl, rfl⟩
  · rw [h.1 hr]
    exact ⟨rfl, rfl⟩

theorem handleFileUpload_frame (ota_secret : Str) (pf : Platform) (token : Str)
    (upload : HTTPUpload) (st : State) :
    (handleFileUpload ota_secret pf token upload st).stats = st.stats
    ∧ (handleFileUpload ota_secret pf token upload st).lastSaveTime = st.lastSaveTime := by
  unfold handleFileUpload
  cases upload.status
  · simp only []
    split
    · exact ⟨rfl, rfl⟩
    · exact ⟨rfl, rfl⟩
  · simp only []
    split <;> exact ⟨rfl, rfl⟩
  · simp only []
    split <;> exact ⟨rfl, rfl⟩
  · exact ⟨rfl, rfl⟩

/-- The stats record after a pass of `loop`. -/
theorem loop_stats (pf : Platform) (m1 m2 : Nat) (st : State) :
    (loop pf m1 m2 st).stats
      = if flushDue m1 st then
          { st.stats with
            totalRuntimeSeconds :=
              add64 st.stats.totalRuntimeSeconds (sub32 (m2 % U32) st.lastSaveTime / 1000) }
        else st.stats := by
  unfold loop
  split
  · exact (saveStats_frame pf _).1
  · rfl

/-! ## Monotone counters (C15) -/

theorem PersistentStats.le_refl (a : PersistentStats) : a.le a :=
  ⟨Nat.le_refl _, Nat.le_refl _, Nat.le_refl _⟩

theorem PersistentStats.le_trans {a b c : PersistentStats} (hab : a.le b) (hbc : b.le c) :
    a.le c :=
  ⟨Nat.le_trans hab.1 hbc.1, Nat.le_trans hab.2.1 hbc.2.1, Nat.le_trans hab.2.2 hbc.2.2⟩

/-- One step whose additions fit in 64 bits lowers no field. -/
theorem step_le (ota_secret : Str) (e : Step) (st : State) (hfit : e.fits st) :
    st.stats.le (step ota_secret e st).stats := by
  cases e with
  | request pf uri hasDownload startTick endTick =>
    have h := handleDynamicRequest_state pf uri hasDownload startTick endTick st
    simp only [step]
    cases hr : (handleDynamicRequest pf uri hasDownload startTick endTick st).ret
    · rw [h.2 hr]
      exact PersistentStats.le_refl _
    · obtain ⟨hv, ht⟩ := hfit hr
      rw [h.1 hr]
      refine ⟨?_, ?_, Nat.le_refl _⟩
      · show st.stats.totalVisits ≤ (st.stats.totalVisits + 1) % U64
        rw [Nat.mod_eq_of_lt hv]
        exact Nat.le_succ _
      · show st.stats.totalResponseTimeMs
          ≤ (st.stats.totalResponseTimeMs + sub32 endTick startTick) % U64
        rw [Nat.mod_eq_of_lt ht]
        exact Nat.le_add_right _ _
  | uploadEvent pf token upload =>
    simp only [step, (handleFileUpload_frame ota_secret pf token upload st).1]
    exact PersistentStats.le_refl _
  | uploadResponse token => exact PersistentStats.le_refl _
  | status millis => exact PersistentStats.le_refl _
  | tick pf m1 m2 =>
    simp only [step, loop_stats]
    cases hd : flushDue m1 st
    · exact PersistentStats.le_refl _
    · have hr := hfit hd
      refine ⟨Nat.le_refl _, Nat.le_refl _, ?_⟩
      show st.stats.totalRuntimeSeconds
        ≤ add64 st.stats.totalRuntimeSeconds (sub32 (m2 % U32) st.lastSaveTime / 1000)
      unfold add64
      rw [Nat.mod_eq_of_lt hr]
      exact Nat.le_add_right _ _

/-- C15, as stated, fails: a served request on a record with
`totalVisits = 2^64 - 1` lowers `totalVisits` to 0, and a flush tick on a record
with `totalRuntimeSeconds = 2^64 - 1` lowers `totalRuntimeSeconds` to 3699. -/
theorem counters_drop_on_wrap :
    (step "s3cret".toList (.request reliable "/a.css".toList false 10 15)
      { bootState (volume [("/a.css".toList, [97])]) with
        stats := ⟨18446744073709551615, 0, 18446744073709551615⟩ }).stats.totalVisits
      < 18446744073709551615
    ∧ (step "s3cret".toList (.tick reliable 3700000 3700000)
      { bootState (volume [("/a.css".toList, [97])]) with
        stats := ⟨18446744073709551615, 0, 18446744073709551615⟩ }).stats.totalRuntimeSeconds
      < 18446744073709551615 := by
  decide

/-- C15, amended: over every sequence of post-boot steps (served request, failed
request, upload event, upload completion, status request, flush tick) in which
every 64-bit addition performed stays below `2^64`, the three fields of the stats
record never decrease: after each such step, and hence after the whole sequence,
every field is at least its value before. -/
theorem stats_monotone (ota_secret : Str) (e : Step) (steps : List Step) (st : State) :
    (e.fits st → st.stats.le (step ota_secret e st).stats)
    ∧ (runFits ota_secret steps st → st.stats.le (runSteps ota_secret steps st).stats) := by
  refine ⟨step_le ota_secret e st, ?_⟩
  induction steps generalizing st with
  | nil =>
    intro _
    exact PersistentStats.le_refl _
  | cons a as ih =>
    intro hfit
    have h1 := step_le ota_secret a st hfit.1
    have h2 := ih (step ota_secret a st) hfit.2
    exact PersistentStats.le_trans h1 h2

/-- C15, amended, at a run of a served request, a wrong-token upload START, a
status request and a flush tick from the record `{41, 900, 7}`. -/
theorem stats_monotone_witness :
    (runSteps "s3cret".toList
      [.request reliable "/a.css".toList false 10 15,
       .uploadEvent reliable "guess".toList ⟨.UPLOAD_FILE_START, "/x".toList, []⟩,
       .status 20, .tick reliable 3700000 3700000]
      { bootState (volume [("/a.css".toList, [97])]) with stats := ⟨41, 900, 7⟩ }).stats
      = ⟨42, 905, 3707⟩
    ∧ (⟨41, 900, 7⟩ : PersistentStats).le
      (runSteps "s3cret".toList
        [.request reliable "/a.css".toList false 10 15,
         .uploadEvent reliable "guess".toList ⟨.UPLOAD_FILE_START, "/x".toList, []⟩,
         .status 20, .tick reliable 3700000 3700000]
        { bootState (volume [("/a.css".toList, [97])]) with stats := ⟨41, 900, 7⟩ }).stats :=
  ⟨by decide,
   (stats_monotone "s3cret".toList (.status 0)
      [.request reliable "/a.css".toList false 10 15,
       .uploadEvent reliable "guess".toList ⟨.UPLOAD_FILE_START, "/x".toList, []⟩,
       .status 20, .tick reliable 3700000 3700000]
      { bootState (volume [("/a.css".toList, [97])]) with stats := ⟨41, 900, 7⟩ }).2
      (by
        refine ⟨fun _ => ⟨by decide, by decide⟩, trivial, trivial, fun _ => ?_, trivial⟩
        decide)⟩

/-! ## Who changes `totalRuntimeSeconds` (C18) -/

/-- C18: `handleDynamicRequest` (whatever it returns), `handleFileUpload` (on any
event), `handleUploadResponse`, `handleStatus` and `saveStats` leave
`totalRuntimeSeconds` and `lastSaveTime` as they were, and so does a pass of
`loop` that does not take the flush branch; the flush branch, the one place where
`totalRuntimeSeconds` changes, leaves `totalVisits` and `totalResponseTimeMs` as
they were. -/
theorem totalRuntimeSeconds_only_flush (ota_secret token : Str) (pf : Platform) (uri : Str)
    (hasDownload : Bool) (startTick endTick millis m1 m2 : Nat) (upload : HTTPUpload)
    (st : State) :
    ((handleDynamicRequest pf uri hasDownload startTick endTick
        st).state.stats.totalRuntimeSeconds = st.stats.totalRuntimeSeconds
      ∧ (handleDynamicRequest pf uri hasDownload startTick endTick st).state.lastSaveTime
        = st.lastSaveTime)
    ∧ ((handleFileUpload ota_secret pf token upload st).stats.totalRuntimeSeconds
        = st.stats.totalRuntimeSeconds
      ∧ (handleFileUpload ota_secret pf token upload st).lastSaveTime = st.lastSaveTime)
    ∧ step ota_secret (.uploadResponse token) st = st
    ∧ (handleStatus millis st).2 = st
    ∧ ((saveStats pf st).stats.totalRuntimeSeconds = st.stats.totalRuntimeSeconds
      ∧ (saveStats pf st).lastSaveTime = st.lastSaveTime)
    ∧ (flushDue m1 st = false → loop pf m1 m2 st = st)
    ∧ ((loop pf m1 m2 st).stats.totalVisits = st.stats.totalVisits
      ∧ (loop pf m1 m2 st).stats.totalResponseTimeMs = st.stats.totalResponseTimeMs) := by
  refine ⟨handleDynamicRequest_frame pf uri hasDownload startTick endTick st, ?_, rfl, rfl,
    ?_, loop_of_not_due pf m1 m2 st, ?_⟩
  · have h := handleFileUpload_frame ota_secret pf token upload st
    exact ⟨by rw [h.1], h.2⟩
  · have h := saveStats_frame pf st
    exact ⟨by rw [h.1], h.2.1⟩
  · rw [loop_stats]
    cases flushDue m1 st <;> exact ⟨rfl, rfl⟩

/-- C18 at a flush tick from the record `{41, 900, 7}`: the runtime moves, the
visits and the response time do not; and a tick before the interval has elapsed
changes nothing. -/
theorem totalRuntimeSeconds_only_flush_witness :
    (loop reliable 3700000 3700000
      { bootState (volume []) with stats := ⟨41, 900, 7⟩ }).stats = ⟨41, 900, 3707⟩
    ∧ (loop reliable 1000 1000
      { bootState (volume []) with stats := ⟨41, 900, 7⟩ }).stats = ⟨41, 900, 7⟩ :=
  ⟨by decide,
   congrArg State.stats
    ((totalRuntimeSeconds_only_flush [] [] reliable [] false 0 0 0 1000 1000
      ⟨.UPLOAD_FILE_ABORTED, [], []⟩
      { bootState (volume []) with stats := ⟨41, 900, 7⟩ }).2.2.2.2.2.1 (by decide))⟩

/-! ## Wraparound of the millisecond counter (C19) -/

theorem sub32_wrap (last d : Nat) (hlast : last < U32) (hd : d < U32) :
    sub32 ((last + d) % U32) last = d := by
  unfold sub32
  rw [Nat.mod_mod, Nat.mod_eq_of_lt hlast]
  unfold U32 at *
  omega

/-- C19: for every `lastSaveTime` and every true elapsed time `d` below `2^32` ms,
with `now = (lastSaveTime + d) mod 2^32`, the unsigned difference computed in
`loop` is `d`, also when `now` is numerically smaller than `lastSaveTime`; so the
flush fires if and only if `d >= 3,600,000`, and when it fires it adds `d / 1000`
to the 64-bit `totalRuntimeSeconds` and stores `now` in `lastSaveTime`; when it
does not fire the state is unchanged. -/
theorem loop_flush_wraparound (pf : Platform) (st : State) (d : Nat)
    (hlast : st.lastSaveTime < U32) (hd : d < U32) :
    sub32 ((st.lastSaveTime + d) % U32) st.lastSaveTime = d
    ∧ (flushDue ((st.lastSaveTime + d) % U32) st = true ↔ d ≥ 3600000)
    ∧ (d ≥ 3600000 →
        (loop pf ((st.lastSaveTime + d) % U32) ((st.lastSaveTime + d) % U32)
            st).stats.totalRuntimeSeconds
          = add64 st.stats.totalRuntimeSeconds (d / 1000)
        ∧ (st.stats.totalRuntimeSeconds + d / 1000 < U64 →
            (loop pf ((st.lastSaveTime + d) % U32) ((st.lastSaveTime + d) % U32)
                st).stats.totalRuntimeSeconds
              = st.stats.totalRuntimeSeconds + d / 1000)
        ∧ (loop pf ((st.lastSaveTime + d) % U32) ((st.lastSaveTime + d) % U32)
            st).lastSaveTime = (st.lastSaveTime + d) % U32)
    ∧ (d < 3600000 →
        loop pf ((st.lastSaveTime + d) % U32) ((st.lastSaveTime + d) % U32) st = st) := by
  have hsub := sub32_wrap st.lastSaveTime d hlast hd
  have hdue : flushDue ((st.lastSaveTime + d) % U32) st = true ↔ d ≥ 3600000 := by
    simp [flushDue, hsub, SAVE_INTERVAL_MS]
  refine ⟨hsub, hdue, fun hge => ?_, fun hlt => ?_⟩
  · have hflush := hdue.2 hge
    have hstats := loop_stats pf ((st.lastSaveTime + d) % U32) ((st.lastSaveTime + d) % U32) st
    rw [hflush, Nat.mod_mod, hsub] at hstats
    refine ⟨by rw [hstats]; rfl, fun hfit => ?_, ?_⟩
    · rw [hstats]
      exact Nat.mod_eq_of_lt hfit
    · simp only [loop, hflush, if_true, Nat.mod_mod]
  · apply loop_of_not_due
    cases hf : flushDue ((st.lastSaveTime + d) % U32) st
    · rfl
    · have := hdue.1 hf
      omega

/-- C19 at `lastSaveTime = 4,294,000,000` and `d = 3,700,000`: the counter has
wrapped to `now = 2,732,704`, the flush fires and adds 3700 seconds. -/
theorem loop_flush_wraparound_witness :
    (4294000000 + 3700000) % U32 = 2732704
    ∧ flushDue 2732704
        { bootState (volume []) with stats := ⟨0, 0, 100⟩, lastSaveTime := 4294000000 } = true
    ∧ (loop reliable ((4294000000 + 3700000) % U32) ((4294000000 + 3700000) % U32)
        { bootState (volume []) with
          stats := ⟨0, 0, 100⟩, lastSaveTime := 4294000000 }).stats.totalRuntimeSeconds
        = 100 + 3700000 / 1000 :=
  ⟨by decide, by decide,
   ((loop_flush_wraparound reliable
      { bootState (volume []) with stats := ⟨0, 0, 100⟩, lastSaveTime := 4294000000 }
      3700000 (by decide) (by decide)).2.2.1 (by decide)).2.1 (by decide)⟩

/-! ## Time formatting (C16) -/

theorem ilog2Aux_spec (fuel n : Nat) (hf : n ≤ fuel) (hn : 0 < n) :
    2 ^ ilog2Aux fuel n ≤ n ∧ n < 2 ^ (ilog2Aux fuel n + 1) := by
  induction fuel generalizing n with
  | zero => omega
  | succ f ih =>
    unfold ilog2Aux
    split
    · constructor
      · simp only [Nat.pow_zero]; omega
      · simp only [Nat.zero_add, Nat.pow_one]; omega
    · have h := ih (n / 2) (by omega) (by omega)
      have e1 : 2 ^ (ilog2Aux f (n / 2) + 1) = 2 ^ ilog2Aux f (n / 2) * 2 :=
        pow_succ 2 _
      have e2 : 2 ^ (ilog2Aux f (n / 2) + 1 + 1) = 2 ^ (ilog2Aux f (n / 2) + 1) * 2 :=
        pow_succ 2 _
      omega

/-- For positive `n`, `ilog2 n` is the position of the highest set bit. -/
theorem ilog2_spec (n : Nat) (hn : 0 < n) : 2 ^ ilog2 n ≤ n ∧ n < 2 ^ (ilog2 n + 1) :=
  ilog2Aux_spec n n (Nat.le_refl n) hn

/-- The exponents `ilog2 N` and `expDen N D` bracket the quotient `N / D`. -/
theorem expDen_spec (N D : Nat) (hN : 0 < N) (hD : 0 < D) :
    D * 2 ^ ilog2 N ≤ N * 2 ^ expDen N D
    ∧ N * 2 ^ expDen N D < D * 2 ^ (ilog2 N + 1) := by
  obtain ⟨hNge, hNlt⟩ := ilog2_spec N hN
  obtain ⟨hDge, hDlt⟩ := ilog2_spec D hD
  unfold expDen
  split
  · rename_i hc
    refine ⟨hc, ?_⟩
    calc N * 2 ^ ilog2 D < 2 ^ (ilog2 N + 1) * 2 ^ ilog2 D :=
          Nat.mul_lt_mul_of_pos_right hNlt (Nat.two_pow_pos _)
      _ ≤ 2 ^ (ilog2 N + 1) * D := Nat.mul_le_mul_left _ hDge
      _ = D * 2 ^ (ilog2 N + 1) := Nat.mul_comm _ _
  · rename_i hc
    constructor
    · calc D * 2 ^ ilog2 N ≤ 2 ^ (ilog2 D + 1) * N :=
            Nat.mul_le_mul (Nat.le_of_lt hDlt) hNge
        _ = N * 2 ^ (ilog2 D + 1) := Nat.mul_comm _ _
    · have e1 : N * 2 ^ (ilog2 D + 1) = N * 2 ^ ilog2 D * 2 := by
        rw [pow_succ, Nat.mul_assoc]
      have e2 : D * 2 ^ (ilog2 N + 1) = D * 2 ^ ilog2 N * 2 := by
        rw [pow_succ, Nat.mul_assoc]
      omega

/-- After scaling, the quotient has exactly 24 bits. -/
theorem scaled_bounds (N D a b : Nat) (hL : D * 2 ^ a ≤ N * 2 ^ b)
    (hU : N * 2 ^ b < D * 2 ^ (a + 1)) :
    2 ^ 23 * (D * 2 ^ (a - (23 + b))) ≤ N * 2 ^ (23 + b - a)
    ∧ N * 2 ^ (23 + b - a) < 2 ^ 24 * (D * 2 ^ (a - (23 + b))) := by
  have hU2 : N * 2 ^ b < D * 2 ^ a * 2 := by
    rw [pow_succ, ← Nat.mul_assoc] at hU
    exact hU
  rcases Nat.le_total a (23 + b) with h | h
  · obtain ⟨p, hp⟩ := Nat.exists_eq_add_of_le h
    have hdown : a - (23 + b) = 0 := by omega
    have hup : 23 + b - a = p := by omega
    have hpow : 2 ^ 23 * 2 ^ b = 2 ^ a * 2 ^ p := by
      rw [← pow_add, ← pow_add, hp]
    rw [hdown, hup]
    simp only [pow_zero, Nat.mul_one]
    constructor
    · apply Nat.le_of_mul_le_mul_right _ (Nat.two_pow_pos a)
      calc 2 ^ 23 * D * 2 ^ a = 2 ^ 23 * (D * 2 ^ a) := by ring
        _ ≤ 2 ^ 23 * (N * 2 ^ b) := Nat.mul_le_mul_left _ hL
        _ = N * (2 ^ 23 * 2 ^ b) := by ring
        _ = N * 2 ^ p * 2 ^ a := by rw [hpow]; ring
    · apply Nat.lt_of_mul_lt_mul_right (a := 2 ^ a)
      calc N * 2 ^ p * 2 ^ a = N * (2 ^ a * 2 ^ p) := by ring
        _ = 2 ^ 23 * (N * 2 ^ b) := by rw [← hpow]; ring
        _ < 2 ^ 23 * (D * 2 ^ a * 2) := Nat.mul_lt_mul_of_pos_left hU2 (Nat.two_pow_pos _)
        _ = 2 ^ 24 * D * 2 ^ a := by ring
  · obtain ⟨q, hq⟩ := Nat.exists_eq_add_of_le h
    have hdown : a - (23 + b) = q := by omega
    have hup : 23 + b - a = 0 := by omega
    have hpow : 2 ^ a = 2 ^ 23 * 2 ^ q * 2 ^ b := by
      rw [← pow_add, ← pow_add, hq]
      congr 1
      omega
    rw [hdown, hup]
    simp only [pow_zero, Nat.mul_one]
    constructor
    · apply Nat.le_of_mul_le_mul_right _ (Nat.two_pow_pos b)
      calc 2 ^ 23 * (D * 2 ^ q) * 2 ^ b = D * (2 ^ 23 * 2 ^ q * 2 ^ b) := by ring
        _ = D * 2 ^ a := by rw [hpow]
        _ ≤ N * 2 ^ b := hL
    · apply Nat.lt_of_mul_lt_mul_right (a := 2 ^ b)
      calc N * 2 ^ b < D * 2 ^ a * 2 := hU2
        _ = D * (2 ^ 23 * 2 ^ q * 2 ^ b) * 2 := by rw [hpow]
        _ = 2 ^ 24 * (D * 2 ^ q) * 2 ^ b := by ring

/-- The rounded whole number is within half a unit of the quotient. -/
theorem roundTiesEven_close (n d : Nat) (hd : 0 < d) :
    2 * (roundTiesEven n d * d) ≤ 2 * n + d ∧ 2 * n ≤ 2 * (roundTiesEven n d * d) + d := by
  have h1 : n / d * d + n % d = n := Nat.div_add_mod' n d
  have h2 : n % d < d := Nat.mod_lt n hd
  have h3 : (n / d + 1) * d = n / d * d + d := Nat.succ_mul _ _
  unfold roundTiesEven
  split
  · omega
  · split
    · rw [h3]; omega
    · split
      · omega
      · rw [h3]; omega

theorem roundF32_den_pos (N D : Nat) : 0 < (roundF32 N D).den := by
  unfold roundF32
  split
  · exact Nat.one_pos
  · exact Nat.two_pow_pos _

/-- Rounding to binary32 changes a quotient by a factor within `2 ^ (-24)` of 1. -/
theorem roundF32_error (N D : Nat) (hD : 0 < D) :
    ∃ ρ : ℚ, (roundF32 N D).toRat = (N : ℚ) / (D : ℚ) * ρ
      ∧ 1 - 1 / 2 ^ 24 ≤ ρ ∧ ρ ≤ 1 + 1 / 2 ^ 24 := by
  rcases Nat.eq_zero_or_pos N with hN | hN
  · refine ⟨1, ?_, by norm_num, by norm_num⟩
    subst hN
    simp [roundF32, F32.toRat]
  · obtain ⟨hL, hU⟩ := expDen_spec N D hN hD
    obtain ⟨h23, _⟩ := scaled_bounds N D (ilog2 N) (expDen N D) hL hU
    have hdpos : 0 < D * 2 ^ (ilog2 N - (23 + expDen N D)) :=
      Nat.mul_pos hD (Nat.two_pow_pos _)
    obtain ⟨hc1, hc2⟩ := roundTiesEven_close (N * 2 ^ (23 + expDen N D - ilog2 N))
      (D * 2 ^ (ilog2 N - (23 + expDen N D))) hdpos
    have hround : roundF32 N D
        = ⟨roundTiesEven (N * 2 ^ (23 + expDen N D - ilog2 N))
            (D * 2 ^ (ilog2 N - (23 + expDen N D))) * 2 ^ (ilog2 N - (23 + expDen N D)),
           2 ^ (23 + expDen N D - ilog2 N)⟩ := by
      simp only [roundF32, Nat.ne_of_gt hN, if_false]
    generalize roundTiesEven (N * 2 ^ (23 + expDen N D - ilog2 N))
      (D * 2 ^ (ilog2 N - (23 + expDen N D))) = m1 at hc1 hc2 hround
    generalize 23 + expDen N D - ilog2 N = up at h23 hc1 hc2 hround
    generalize ilog2 N - (23 + expDen N D) = down at h23 hdpos hc1 hc2 hround
    have hNq : (0 : ℚ) < N := by exact_mod_cast hN
    have hDq : (0 : ℚ) < D := by exact_mod_cast hD
    have hup : (0 : ℚ) < 2 ^ up := by positivity
    have hdown : (0 : ℚ) < 2 ^ down := by positivity
    have q23 : (2 : ℚ) ^ 23 * ((D : ℚ) * 2 ^ down) ≤ (N : ℚ) * 2 ^ up := by
      exact_mod_cast h23
    have qc1 : 2 * ((m1 : ℚ) * ((D : ℚ) * 2 ^ down)) ≤ 2 * ((N : ℚ) * 2 ^ up) + (D : ℚ) * 2 ^ down := by
      exact_mod_cast hc1
    have qc2 : 2 * ((N : ℚ) * 2 ^ up) ≤ 2 * ((m1 : ℚ) * ((D : ℚ) * 2 ^ down)) + (D : ℚ) * 2 ^ down := by
      exact_mod_cast hc2
    have hn : (0 : ℚ) < (N : ℚ) * 2 ^ up := by positivity
    refine ⟨(m1 : ℚ) * ((D : ℚ) * 2 ^ down) / ((N : ℚ) * 2 ^ up), ?_, ?_, ?_⟩
    · rw [hround]
      simp only [F32.toRat, Nat.cast_mul, Nat.cast_pow, Nat.cast_ofNat]
      field_simp
      ring
    · rw [le_div_iff₀ hn]
      norm_num at q23 ⊢
      linarith
    · rw [div_le_iff₀ hn]
      norm_num at q23 ⊢
      linarith

/-- A quotient that is a whole number below `2 ^ 24` is rounded to itself. -/
theorem roundF32_exact (N D k : Nat) (hD : 0 < D) (hk : 0 < k) (hk24 : k < 2 ^ 24)
    (hN : N = k * D) : (roundF32 N D).toRat = (k : ℚ) := by
  have hNpos : 0 < N := by rw [hN]; exact Nat.mul_pos hk hD
  obtain ⟨hL, hU⟩ := expDen_spec N D hNpos hD
  obtain ⟨h23, _⟩ := scaled_bounds N D (ilog2 N) (expDen N D) hL hU
  have hz : 23 + expDen N D - ilog2 N = 0 ∨ ilog2 N - (23 + expDen N D) = 0 := by omega
  have hround : roundF32 N D
      = ⟨roundTiesEven (N * 2 ^ (23 + expDen N D - ilog2 N))
          (D * 2 ^ (ilog2 N - (23 + expDen N D))) * 2 ^ (ilog2 N - (23 + expDen N D)),
         2 ^ (23 + expDen N D - ilog2 N)⟩ := by
    simp only [roundF32, Nat.ne_of_gt hNpos, if_false]
  generalize 23 + expDen N D - ilog2 N = up at h23 hz hround
  generalize ilog2 N - (23 + expDen N D) = down at h23 hz hround
  have hdown : down = 0 := by
    by_contra hne
    have hup : up = 0 := by
      rcases hz with h | h
      · exact h
      · exact absurd h hne
    have h1 : 2 ≤ 2 ^ down := by
      calc 2 = 2 ^ 1 := rfl
        _ ≤ 2 ^ down := Nat.pow_le_pow_right (by decide) (Nat.pos_of_ne_zero hne)
    rw [hup, pow_zero, Nat.mul_one] at h23
    have h2 : 2 ^ 23 * (D * 2) ≤ 2 ^ 23 * (D * 2 ^ down) :=
      Nat.mul_le_mul_left _ (Nat.mul_le_mul_left _ h1)
    have h3 : k * D < 2 ^ 24 * D := Nat.mul_lt_mul_of_pos_right hk24 hD
    omega
  have hmul : N * 2 ^ up = k * 2 ^ up * D := by rw [hN]; ring
  have hdiv : N * 2 ^ up / D = k * 2 ^ up := by
    rw [hmul]
    exact Nat.mul_div_cancel _ hD
  have hmod : N * 2 ^ up % D = 0 := by
    rw [hmul]
    exact Nat.mul_mod_left _ _
  rw [hround]
  simp only [hdown, pow_zero, Nat.mul_one, roundTiesEven, hdiv, hmod, Nat.mul_zero, hD, if_true,
    F32.toRat, Nat.cast_mul, Nat.cast_pow, Nat.cast_ofNat]
  field_simp

/-- A positive counter converts to a binary32 value with a non-zero numerator and
a value within a factor `2 ^ (-24)` of the counter. -/
theorem u64ToF32_error (n : Nat) :
    ∃ ρ : ℚ, (u64ToF32 n).toRat = (n : ℚ) * ρ ∧ 1 - 1 / 2 ^ 24 ≤ ρ ∧ ρ ≤ 1 + 1 / 2 ^ 24 := by
  obtain ⟨ρ, h, hl, hu⟩ := roundF32_error n 1 Nat.one_pos
  refine ⟨ρ, ?_, hl, hu⟩
  rw [u64ToF32, h]
  simp

theorem u64ToF32_num_ne_zero (n : Nat) (hn : 0 < n) : (u64ToF32 n).num ≠ 0 := by
  obtain ⟨ρ, h, hl, _⟩ := u64ToF32_error n
  intro hzero
  have hρ : (0 : ℚ) < ρ := by
    have : (0 : ℚ) < 1 - 1 / 2 ^ 24 := by norm_num
    linarith
  have hpos : (0 : ℚ) < (n : ℚ) * ρ := mul_pos (by exact_mod_cast hn) hρ
  rw [← h, F32.toRat, hzero] at hpos
  simp at hpos

/-- The value of a binary32 quotient: the exact quotient of the operands, rounded. -/
theorem f32div_value (x y : F32) (hx : 0 < x.den) (hy : y.num ≠ 0) :
    ∃ z ρ, f32div x y = some z ∧ z.toRat = x.toRat / y.toRat * ρ
      ∧ 1 - 1 / 2 ^ 24 ≤ ρ ∧ ρ ≤ 1 + 1 / 2 ^ 24 := by
  have hD : 0 < x.den * y.num := Nat.mul_pos hx (Nat.pos_of_ne_zero hy)
  obtain ⟨ρ, h, hl, hu⟩ := roundF32_error (x.num * y.den) (x.den * y.num) hD
  refine ⟨roundF32 (x.num * y.den) (x.den * y.num), ρ, ?_, ?_, hl, hu⟩
  · simp only [f32div, hy, if_false]
  · rw [h]
    simp only [F32.toRat, Nat.cast_mul]
    rw [div_div_div_eq]

/-- The binary32 average of two counters is within a factor `2 ^ (-22)` of 1 of their
exact quotient. -/
theorem f32div_counters (rt v : Nat) (hv : 0 < v) :
    ∃ z, f32div (u64ToF32 rt) (u64ToF32 v) = some z
      ∧ |z.toRat - (rt : ℚ) / (v : ℚ)| ≤ (rt : ℚ) / (v : ℚ) / 2 ^ 22 := by
  obtain ⟨ρ1, h1, h1l, h1u⟩ := u64ToF32_error rt
  obtain ⟨ρ2, h2, h2l, h2u⟩ := u64ToF32_error v
  obtain ⟨z, ρ3, hz, hval, h3l, h3u⟩ := f32div_value (u64ToF32 rt) (u64ToF32 v)
    (roundF32_den_pos rt 1) (u64ToF32_num_ne_zero v hv)
  refine ⟨z, hz, ?_⟩
  have hvq : (0 : ℚ) < v := by exact_mod_cast hv
  have hrt : (0 : ℚ) ≤ rt := by exact_mod_cast Nat.zero_le rt
  have hq : (0 : ℚ) ≤ (rt : ℚ) / (v : ℚ) := div_nonneg hrt (le_of_lt hvq)
  have hρ2 : (0 : ℚ) < ρ2 := by
    have : (0 : ℚ) < 1 - 1 / 2 ^ 24 := by norm_num
    linarith
  have hρ1 : (0 : ℚ) ≤ ρ1 := by
    have : (0 : ℚ) < 1 - 1 / 2 ^ 24 := by norm_num
    linarith
  have hρ3 : (0 : ℚ) ≤ ρ3 := by
    have : (0 : ℚ) < 1 - 1 / 2 ^ 24 := by norm_num
    linarith
  have hfac : z.toRat = (rt : ℚ) / (v : ℚ) * (ρ1 * ρ3 / ρ2) := by
    rw [hval, h1, h2]
    field_simp
    ring
  have hup : ρ1 * ρ3 / ρ2 ≤ 1 + 1 / 2 ^ 22 := by
    rw [div_le_iff₀ hρ2]
    have hprod : ρ1 * ρ3 ≤ (1 + 1 / 2 ^ 24) * (1 + 1 / 2 ^ 24) :=
      mul_le_mul h1u h3u hρ3 (by norm_num)
    have hnum : ((1 : ℚ) + 1 / 2 ^ 24) * (1 + 1 / 2 ^ 24)
        ≤ (1 + 1 / 2 ^ 22) * (1 - 1 / 2 ^ 24) := by norm_num
    have hmul : ((1 : ℚ) + 1 / 2 ^ 22) * (1 - 1 / 2 ^ 24) ≤ (1 + 1 / 2 ^ 22) * ρ2 :=
      mul_le_mul_of_nonneg_left h2l (by norm_num)
    linarith
  have hlow : 1 - 1 / 2 ^ 22 ≤ ρ1 * ρ3 / ρ2 := by
    rw [le_div_iff₀ hρ2]
    have hprod : ((1 : ℚ) - 1 / 2 ^ 24) * (1 - 1 / 2 ^ 24) ≤ ρ1 * ρ3 :=
      mul_le_mul h1l h3l (by norm_num) hρ1
    have hnum : ((1 : ℚ) - 1 / 2 ^ 22) * (1 + 1 / 2 ^ 24)
        ≤ (1 - 1 / 2 ^ 24) * (1 - 1 / 2 ^ 24) := by norm_num
    have hmul : ((1 : ℚ) - 1 / 2 ^ 22) * ρ2 ≤ (1 - 1 / 2 ^ 22) * (1 + 1 / 2 ^ 24) :=
      mul_le_mul_of_nonneg_left h2u (by norm_num)
    linarith
  rw [hfac, abs_le]
  constructor
  · have := mul_le_mul_of_nonneg_left hlow hq
    linarith
  · have := mul_le_mul_of_nonneg_left hup hq
    linarith

/-- When both counters are below `2 ^ 24` and the visits divide the response time,
the binary32 average is the exact quotient. -/
theorem f32div_counters_exact (rt v : Nat) (hv : 0 < v) (hv24 : v < 2 ^ 24)
    (hrt24 : rt < 2 ^ 24) (hdvd : v ∣ rt) :
    (f32div (u64ToF32 rt) (u64ToF32 v)).map F32.toRat = some ((rt : ℚ) / (v : ℚ)) := by
  obtain ⟨k, hk⟩ := hdvd
  have hvq : (v : ℚ) ≠ 0 := by exact_mod_cast Nat.ne_of_gt hv
  have hynum := u64ToF32_num_ne_zero v hv
  have hquot : (rt : ℚ) / (v : ℚ) = (k : ℚ) := by
    rw [hk]
    push_cast
    field_simp
  rw [hquot]
  rcases Nat.eq_zero_or_pos k with hk0 | hkpos
  · have hrt0 : rt = 0 := by rw [hk, hk0, Nat.mul_zero]
    have hx0 : u64ToF32 0 = ⟨0, 1⟩ := by simp [u64ToF32, roundF32]
    have hr0 : roundF32 0 (1 * (u64ToF32 v).num) = ⟨0, 1⟩ := by simp [roundF32]
    rw [hrt0, hk0, hx0]
    simp only [f32div, hynum, if_false, Nat.zero_mul, Option.map_some', hr0]
    simp [F32.toRat]
  · have hrtpos : 0 < rt := by rw [hk]; exact Nat.mul_pos hv hkpos
    have hk24 : k < 2 ^ 24 := by
      have : k ≤ rt := by
        rw [hk]
        exact Nat.le_mul_of_pos_left k hv
      omega
    have hx : (u64ToF32 rt).toRat = (rt : ℚ) :=
      roundF32_exact rt 1 rt Nat.one_pos hrtpos hrt24 (Nat.mul_one rt).symm
    have hy : (u64ToF32 v).toRat = (v : ℚ) :=
      roundF32_exact v 1 v Nat.one_pos hv hv24 (Nat.mul_one v).symm
    have hxden : 0 < (u64ToF32 rt).den := roundF32_den_pos rt 1
    have hyden : 0 < (u64ToF32 v).den := roundF32_den_pos v 1
    have hxn : (u64ToF32 rt).num = rt * (u64ToF32 rt).den := by
      have hne : ((u64ToF32 rt).den : ℚ) ≠ 0 := by exact_mod_cast Nat.ne_of_gt hxden
      have := hx
      rw [F32.toRat, div_eq_iff hne] at this
      exact_mod_cast this
    have hyn : (u64ToF32 v).num = v * (u64ToF32 v).den := by
      have hne : ((u64ToF32 v).den : ℚ) ≠ 0 := by exact_mod_cast Nat.ne_of_gt hyden
      have := hy
      rw [F32.toRat, div_eq_iff hne] at this
      exact_mod_cast this
    have hD : 0 < (u64ToF32 rt).den * (u64ToF32 v).num :=
      Nat.mul_pos hxden (Nat.pos_of_ne_zero hynum)
    have hN : (u64ToF32 rt).num * (u64ToF32 v).den
        = k * ((u64ToF32 rt).den * (u64ToF32 v).num) := by
      rw [hxn, hyn, hk]
      ring
    have := roundF32_exact _ _ k hD hkpos hk24 hN
    simp only [f32div, hynum, if_false, Option.map_some', this]

/-- C17, as stated, fails: with one visit and a response time of `2 ^ 24 + 1` ms
the conversion to `float` rounds the dividend and the average is `16777216`, not
`16777217 / 1`; with three visits and 1 ms the average is `11184811 / 2 ^ 25`,
not `1 / 3`. -/
theorem avgTime_rounds :
    (avgTime ⟨1, 16777217, 0⟩ = some ⟨16777216, 1⟩
      ∧ F32.toRat ⟨16777216, 1⟩ ≠ (16777217 : ℚ) / 1)
    ∧ (avgTime ⟨3, 1, 0⟩ = some ⟨11184811, 33554432⟩
      ∧ F32.toRat ⟨11184811, 33554432⟩ ≠ (1 : ℚ) / 3) :=
  ⟨⟨by decide, by norm_num [F32.toRat]⟩, ⟨by decide, by norm_num [F32.toRat]⟩⟩

/-- C17, amended: the average response time computed by `handleStatus` is 0
whenever `totalVisits` is 0, for every `totalResponseTimeMs` and without a
division; otherwise it is the binary32 quotient of the two counters, each first
converted to binary32: a finite value that differs from
`totalResponseTimeMs / totalVisits` by at most that quotient times `2 ^ (-22)`, and
that is exactly the quotient when both counters are below `2 ^ 24` and
`totalVisits` divides `totalResponseTimeMs`. -/
theorem avgTime_spec (stats : PersistentStats) :
    (stats.totalVisits = 0 →
      avgTime stats = some ⟨0, 1⟩ ∧ (avgTime stats).map F32.toRat = some 0)
    ∧ (0 < stats.totalVisits →
      ∃ z, avgTime stats = some z
        ∧ f32div (u64ToF32 stats.totalResponseTimeMs) (u64ToF32 stats.totalVisits) = some z
        ∧ |z.toRat - (stats.totalResponseTimeMs : ℚ) / (stats.totalVisits : ℚ)|
            ≤ (stats.totalResponseTimeMs : ℚ) / (stats.totalVisits : ℚ) / 2 ^ 22)
    ∧ (0 < stats.totalVisits → stats.totalVisits < 2 ^ 24 →
        stats.totalResponseTimeMs < 2 ^ 24 →
        stats.totalVisits ∣ stats.totalResponseTimeMs →
      (avgTime stats).map F32.toRat
        = some ((stats.totalResponseTimeMs : ℚ) / (stats.totalVisits : ℚ))) := by
  refine ⟨fun h0 => ?_, fun hpos => ?_, fun hpos hv hrt hdvd => ?_⟩
  · have hav : avgTime stats = some ⟨0, 1⟩ := by
      simp only [avgTime, h0, gt_iff_lt, Nat.lt_irrefl, if_false]
    refine ⟨hav, ?_⟩
    rw [hav]
    simp [F32.toRat]
  · obtain ⟨z, hz, hclose⟩ :=
      f32div_counters stats.totalResponseTimeMs stats.totalVisits hpos
    refine ⟨z, ?_, hz, hclose⟩
    simp only [avgTime, gt_iff_lt, hpos, if_true, hz]
  · have h := f32div_counters_exact stats.totalResponseTimeMs stats.totalVisits hpos hv hrt
      hdvd
    simp only [avgTime, gt_iff_lt, hpos, if_true, h]

/-- C17, amended, at no visit with 5 ms on the counter, and at 4 visits that took
1000 ms together. -/
theorem avgTime_spec_witness :
    avgTime ⟨0, 5, 0⟩ = some ⟨0, 1⟩
    ∧ (avgTime ⟨4, 1000, 0⟩).map F32.toRat = some ((1000 : ℚ) / 4) :=
  ⟨((avgTime_spec ⟨0, 5, 0⟩).1 rfl).1,
   by
    have h := (avgTime_spec ⟨4, 1000, 0⟩).2.2 (by decide) (by decide) (by decide) (by decide)
    simpa using h⟩

end ESP32Card
